import Mathlib

/-!
Verification of the vs-utils interaction-featurization engine.

This file gives a shallow embedding of the geometric interaction-detection
and voxelization code of the repository (`vs_utils/utils/grid_featurizer.py`
and `vs_utils/features/nnscore.py`) and proves, or refutes, the frozen
claims about it.

Conventions of the embedding:
* 3D points/vectors are a `Vec3` of real coordinates; machine floats are
  idealized as real numbers, and the code's NaN tests are translated into
  the explicit conditions that produce a NaN (a zero norm, or a dot
  product falling outside `[-1, 1]`).
* Python dictionaries indexed by strings are association lists
  (`Hashtable`); `hashtable_entry_add_one` keeps the Python semantics of
  updating the entry in place when the key is present and appending it
  otherwise.
* Molecule objects (class `PDB` of the external `nnscore_pdb` module, not
  part of the repository sources) are records holding exactly the data the
  detectors read: the atom table, the aromatic rings and the charged
  groups.
* Real division is total with `x / 0 = 0` (the Python code would raise on
  a zero divisor), and the `indices[0]` lookups on charged groups and
  rings are modelled with `List.headD 0` (Python would raise on an empty
  index list); neither case arises on well-formed molecules.
-/

open scoped Classical

noncomputable section

/-! ## Geometry primitives (grid_featurizer.py) -/

/-- A 3D point or vector with real coordinates. -/
structure Vec3 where
  x : ℝ
  y : ℝ
  z : ℝ

/-- Componentwise negation of a vector (numpy `-v`). -/
def Vec3.neg (v : Vec3) : Vec3 := ⟨-v.x, -v.y, -v.z⟩

/-- Componentwise difference (numpy `u - v`). -/
def Vec3.sub (u v : Vec3) : Vec3 := ⟨u.x - v.x, u.y - v.y, u.z - v.z⟩

/-- Dot product of two 3-vectors (`np.dot`). -/
def dot (u v : Vec3) : ℝ := u.x * v.x + u.y * v.y + u.z * v.z

/-- Euclidean norm (`np.linalg.norm`): square root of the dot product with
itself. -/
def norm3 (v : Vec3) : ℝ := Real.sqrt (dot v v)

/-- The function `unit_vector` of grid_featurizer.py: `vector / np.linalg.norm(vector)`.
Real division by zero is `0`, so a zero vector normalizes to the zero
vector (the float code produces NaN components there; the NaN case is
handled explicitly in `angle_between` below). -/
def unit_vector (vector : Vec3) : Vec3 :=
  ⟨vector.x / norm3 vector, vector.y / norm3 vector, vector.z / norm3 vector⟩

/-- The condition under which `np.arccos(np.dot(vector_i_u, vector_j_u))`
is NaN in the float code: a zero-norm input (NaN components after
normalization) or a dot product outside `[-1, 1]`. -/
def angle_undefined (vector_i vector_j : Vec3) : Prop :=
  norm3 vector_i = 0 ∨ norm3 vector_j = 0 ∨
    dot (unit_vector vector_i) (unit_vector vector_j) < -1 ∨
    1 < dot (unit_vector vector_i) (unit_vector vector_j)

/-- The function `angle_between` of grid_featurizer.py: arccos of the dot product of the
normalized inputs; on the NaN branch (`np.isnan(angle)`), `0.0` when the
normalized vectors compare componentwise equal and `np.pi` otherwise. -/
def angle_between (vector_i vector_j : Vec3) : ℝ :=
  if angle_undefined vector_i vector_j then
    if unit_vector vector_i = unit_vector vector_j then 0 else Real.pi
  else Real.arccos (dot (unit_vector vector_i) (unit_vector vector_j))

/-! ## Python string-keyed dictionaries (nnscore.py)

A Python dict with string keys is an association list in insertion order;
values are reals (the detectors store integer counts and accumulated
Coulomb energies in the same kind of table). -/

/-- A Python dictionary from strings to numbers, in insertion order. -/
abbrev Hashtable := List (String × ℝ)

/-- The function `hashtable_entry_add_one` of nnscore.py: add `toadd` to the entry when
the key is present, otherwise insert the key with value `toadd` (at the
end, as a fresh dict entry). -/
def hashtable_entry_add_one : Hashtable → String → ℝ → Hashtable
  | [], key, toadd => [(key, toadd)]
  | p :: rest, key, toadd =>
    if p.1 = key then (p.1, p.2 + toadd) :: rest
    else p :: hashtable_entry_add_one rest key toadd

/-- Python dict assignment `h[key] = v`: overwrite in place when present,
append otherwise. -/
def htSet : Hashtable → String → ℝ → Hashtable
  | [], key, v => [(key, v)]
  | p :: rest, key, v =>
    if p.1 = key then (p.1, v) :: rest else p :: htSet rest key v

/-- Dict read `h[key]`, with `0` for an absent key (reads in the code are
only performed on present keys). -/
def htLookup : Hashtable → String → ℝ
  | [], _ => 0
  | p :: rest, key => if p.1 = key then p.2 else htLookup rest key

/-- The key set of a dict, in insertion order. -/
def htKeys (h : Hashtable) : List String := h.map Prod.fst

/-! ## The NNScore/Binana fingerprint (nnscore.py)

Thresholds, data model and interaction detectors. The `PDB` molecule
class, the `Point`/`MathFunctions` helpers and the `AromaticRing`/
`Charged` records come from the external `nnscore_pdb`/`nnscore_utils`
modules (not in the repository sources); they are modelled from the spec
where noted, holding exactly the data the detectors read. -/

/-- Coulomb conversion constant of nnscore.py (`138.94238460104697e4`). -/
def ELECTROSTATIC_JOULE_PER_MOL : ℝ := 138.94238460104697e4

/-- Hydrogen-to-heavy-atom distance cutoff, angstroms. -/
def H_BOND_DIST : ℝ := 1.3

/-- Hydrogen-bond angle cutoff, degrees. -/
def H_BOND_ANGLE : ℝ := 40

/-- Close-contact distance cutoff, angstroms. -/
def CLOSE_CONTACT_CUTOFF : ℝ := 2.5

/-- Contact distance cutoff, angstroms. -/
def CONTACT_CUTOFF : ℝ := 4

/-- Pi-pi stacking center-distance cutoff, angstroms. -/
def PI_PI_CUTOFF : ℝ := 7.5

/-- Cation-pi distance cutoff, angstroms. -/
def CATION_PI_CUTOFF : ℝ := 6.0

/-- Salt-bridge distance cutoff, angstroms. -/
def SALT_BRIDGE_CUTOFF : ℝ := 5.5

/-- Artificial padding added to every aromatic-ring radius, angstroms. -/
def PI_PADDING : ℝ := 0.75

/-- An atom of the external `PDB` molecule representation: the fields the
detectors read.  `structure_label` is the atom's `structure` attribute
(the word `structure` is reserved in Lean); `backbone` models the
backbone-vs-sidechain flag of the spec's data model. -/
structure Atom where
  coordinates : Vec3
  element : String
  atomtype : String
  charge : ℝ
  structure_label : String
  backbone : Bool

/-- Modelled from the spec: the `side_chain_or_backbone` method of the
external `nnscore_pdb` atom class, exposing the backbone-vs-sidechain
flag (§3) as the string `BACKBONE` or `SIDECHAIN` used in dict keys. -/
def side_chain_or_backbone (atom : Atom) : String :=
  if atom.backbone then "BACKBONE" else "SIDECHAIN"

/-- Modelled from the spec: `Point.dist_to` of the external
`nnscore_utils` module; the Euclidean norm of the difference of two 3D
points (§4.1). -/
def dist_to (a b : Vec3) : ℝ := norm3 (Vec3.sub a b)

/-- A charged group of the external `PDB` representation: coordinates, a
positive/negative flag, and the member atom indices. -/
structure Charged where
  coordinates : Vec3
  positive : Bool
  indices : List ℕ

/-- Plane coefficients `(a, b, c, d)` of an aromatic ring's plane, with
`(a, b, c)` the normal components and `d` the offset, for the plane
`a·x + b·y + c·z = d`. -/
structure Plane where
  a : ℝ
  b : ℝ
  c : ℝ
  d : ℝ

/-- An aromatic ring of the external `PDB` representation: center,
member atom indices, plane coefficients and radius. -/
structure AromaticRing where
  center : Vec3
  indices : List ℕ
  plane_coeff : Plane
  radius : ℝ

/-- The external `PDB` molecule: the dict `all_atoms` (iteration keys plus
a total index-to-atom map), the aromatic rings and the charged groups. -/
structure PDBMol where
  all_atoms_keys : List ℕ
  all_atoms : ℕ → Atom
  aromatic_rings : List AromaticRing
  charges : List Charged

/-- Modelled from the spec: `MathFunctions.angle_between_points` of the
external `nnscore_utils` module; the angle between two vectors with the
degenerate-input policy of §4.1, i.e. the same computation as
`angle_between` of grid_featurizer.py. -/
def angle_between_points (point1 point2 : Vec3) : ℝ :=
  angle_between point1 point2

/-- Modelled from the spec: `MathFunctions.angle_between_three_points` of
the external `nnscore_utils` module; the angle at the middle point between
the two edge vectors. -/
def angle_between_three_points (point1 point2 point3 : Vec3) : ℝ :=
  angle_between (Vec3.sub point1 point2) (Vec3.sub point3 point2)

/-- Modelled from the spec: `MathFunctions.project_point_onto_plane` of
the external `nnscore_utils` module; the orthogonal projection of a point
onto the plane described by the coefficients (§4.1). -/
def project_point_onto_plane (point : Vec3) (plane_coefficients : Plane) : Vec3 :=
  let t := (plane_coefficients.d -
      (plane_coefficients.a * point.x + plane_coefficients.b * point.y +
        plane_coefficients.c * point.z)) /
    (plane_coefficients.a ^ 2 + plane_coefficients.b ^ 2 + plane_coefficients.c ^ 2)
  ⟨point.x + t * plane_coefficients.a,
   point.y + t * plane_coefficients.b,
   point.z + t * plane_coefficients.c⟩

/-- The first three plane coefficients as a normal vector, as built by
`Point(coords=np.array([...plane_coeff[0..2]...]))` in nnscore.py. -/
def plane_normal_vector (pc : Plane) : Vec3 := ⟨pc.a, pc.b, pc.c⟩

/-- The list `Binana.atom_types`: the 21 declared autodock atom types. -/
def atom_types : List String :=
  ["A", "BR", "C", "CD", "CL", "CU", "F", "FE", "H", "HD", "I", "MG", "MN",
   "N", "NA", "O", "OA", "P", "S", "SA", "ZN"]

/-- The electronegative elements recognized by the hydrogen-bond
detector. -/
def electronegative_atoms : List String := ["O", "N", "F"]

/-- Python's `"_".join(sorted([first, second]))` for two strings:
lexicographically smaller string first. -/
def sorted_pair_join (first second : String) : String :=
  if second < first then second ++ "_" ++ first else first ++ "_" ++ second

/-- The list `itertools.product(Binana.atom_types, Binana.atom_types)` in order. -/
def atom_type_pairs : List (String × String) :=
  atom_types.flatMap (fun first => atom_types.map (fun second => (first, second)))

/-- The contact-dictionary vocabulary: every sorted atom-type pair,
pre-initialized to zero. -/
def ligand_receptor_contacts_init : Hashtable :=
  atom_type_pairs.foldl (fun h p => htSet h (sorted_pair_join p.1 p.2) 0) []

/-- The pre-declared hydrophobic-contact vocabulary. -/
def hydrophobics_init : Hashtable :=
  [("BACKBONE_ALPHA", 0), ("BACKBONE_BETA", 0), ("BACKBONE_OTHER", 0),
   ("SIDECHAIN_ALPHA", 0), ("SIDECHAIN_BETA", 0), ("SIDECHAIN_OTHER", 0)]

/-- The pre-declared active-site-flexibility vocabulary. -/
def active_site_flexibility_init : Hashtable :=
  [("BACKBONE_ALPHA", 0), ("BACKBONE_BETA", 0), ("BACKBONE_OTHER", 0),
   ("SIDECHAIN_ALPHA", 0), ("SIDECHAIN_BETA", 0), ("SIDECHAIN_OTHER", 0)]

/-- The pre-declared hydrogen-bond vocabulary. -/
def hbonds_init : Hashtable :=
  [("HDONOR-LIGAND_BACKBONE_ALPHA", 0),
   ("HDONOR-LIGAND_BACKBONE_BETA", 0),
   ("HDONOR-LIGAND_BACKBONE_OTHER", 0),
   ("HDONOR-LIGAND_SIDECHAIN_ALPHA", 0),
   ("HDONOR-LIGAND_SIDECHAIN_BETA", 0),
   ("HDONOR-LIGAND_SIDECHAIN_OTHER", 0),
   ("HDONOR-RECEPTOR_BACKBONE_ALPHA", 0),
   ("HDONOR-RECEPTOR_BACKBONE_BETA", 0),
   ("HDONOR-RECEPTOR_BACKBONE_OTHER", 0),
   ("HDONOR-RECEPTOR_SIDECHAIN_ALPHA", 0),
   ("HDONOR-RECEPTOR_SIDECHAIN_BETA", 0),
   ("HDONOR-RECEPTOR_SIDECHAIN_OTHER", 0)]

/-- The pre-declared pi-pi stacking vocabulary. -/
def pi_stacking_init : Hashtable :=
  [("STACKING_ALPHA", 0), ("STACKING_BETA", 0), ("STACKING_OTHER", 0)]

/-- The pre-declared pi-T vocabulary. -/
def pi_T_init : Hashtable :=
  [("T-SHAPED_ALPHA", 0), ("T-SHAPED_BETA", 0), ("T-SHAPED_OTHER", 0)]

/-- The pre-declared pi-cation vocabulary. -/
def pi_cation_init : Hashtable :=
  [("PI-CATION_LIGAND-CHARGED_ALPHA", 0), ("PI-CATION_LIGAND-CHARGED_BETA", 0),
   ("PI-CATION_LIGAND-CHARGED_OTHER", 0), ("PI-CATION_RECEPTOR-CHARGED_ALPHA", 0),
   ("PI-CATION_RECEPTOR-CHARGED_BETA", 0), ("PI-CATION_RECEPTOR-CHARGED_OTHER", 0)]

/-- The pre-declared salt-bridge vocabulary. -/
def salt_bridges_init : Hashtable :=
  [("SALT-BRIDGE_ALPHA", 0), ("SALT-BRIDGE_BETA", 0), ("SALT-BRIDGE_OTHER", 0)]

/-- The pre-declared ligand-atom-count vocabulary: the 21 atom types. -/
def ligand_atom_types_init : Hashtable :=
  atom_types.foldl (fun h atom_type => htSet h atom_type 0) []

/-- The detector `Binana.compute_hydrophobic_contacts`: carbon-carbon contacts under
4.0 A, keyed by receptor side-chain/backbone and structure class. -/
def compute_hydrophobic_contacts (ligand receptor : PDBMol) : Hashtable :=
  ligand.all_atoms_keys.foldl (fun hydrophobics ligand_atom_index =>
    receptor.all_atoms_keys.foldl (fun hydrophobics receptor_atom_index =>
      let ligand_atom := ligand.all_atoms ligand_atom_index
      let receptor_atom := receptor.all_atoms receptor_atom_index
      let dist := dist_to ligand_atom.coordinates receptor_atom.coordinates
      if dist < CONTACT_CUTOFF then
        if ligand_atom.element = "C" ∧ receptor_atom.element = "C" then
          hashtable_entry_add_one hydrophobics
            (side_chain_or_backbone receptor_atom ++ "_" ++
              receptor_atom.structure_label) 1
        else hydrophobics
      else hydrophobics) hydrophobics) hydrophobics_init

/-- The detector `Binana.compute_electrostatic_energy`: Coulomb energies of atom pairs
under 4.0 A, accumulated under the sorted atom-type pair key. -/
def compute_electrostatic_energy (ligand receptor : PDBMol) : Hashtable :=
  ligand.all_atoms_keys.foldl (fun ligand_receptor_electrostatics ligand_atom_index =>
    receptor.all_atoms_keys.foldl (fun ligand_receptor_electrostatics receptor_atom_index =>
      let ligand_atom := ligand.all_atoms ligand_atom_index
      let receptor_atom := receptor.all_atoms receptor_atom_index
      let atomstr := sorted_pair_join ligand_atom.atomtype receptor_atom.atomtype
      let dist := dist_to ligand_atom.coordinates receptor_atom.coordinates
      if dist < CONTACT_CUTOFF then
        hashtable_entry_add_one ligand_receptor_electrostatics atomstr
          (ligand_atom.charge * receptor_atom.charge / dist *
            ELECTROSTATIC_JOULE_PER_MOL)
      else ligand_receptor_electrostatics) ligand_receptor_electrostatics)
    ligand_receptor_contacts_init

/-- The detector `Binana.compute_active_site_flexibility`: every atom pair under 4.0 A,
keyed by receptor side-chain/backbone and structure class. -/
def compute_active_site_flexibility (ligand receptor : PDBMol) : Hashtable :=
  ligand.all_atoms_keys.foldl (fun active_site_flexibility ligand_atom_index =>
    receptor.all_atoms_keys.foldl (fun active_site_flexibility receptor_atom_index =>
      let ligand_atom := ligand.all_atoms ligand_atom_index
      let receptor_atom := receptor.all_atoms receptor_atom_index
      let dist := dist_to ligand_atom.coordinates receptor_atom.coordinates
      if dist < CONTACT_CUTOFF then
        hashtable_entry_add_one active_site_flexibility
          (side_chain_or_backbone receptor_atom ++ "_" ++
            receptor_atom.structure_label) 1
      else active_site_flexibility) active_site_flexibility)
    active_site_flexibility_init

/-- The hydrogens gathered for a candidate hydrogen-bonding atom pair:
ligand hydrogens within `H_BOND_DIST` of the ligand atom tagged
`LIGAND`, then receptor hydrogens within `H_BOND_DIST` of the receptor
atom tagged `RECEPTOR`.  (The source stashes the tag on the mutable atom
`comment` field right before appending; the tag is modelled functionally,
as the spec's design notes direct.) -/
def hbond_hydrogens (ligand receptor : PDBMol) (ligand_atom receptor_atom : Atom) :
    List (Atom × String) :=
  (ligand.all_atoms_keys.filter (fun atm_index =>
      decide ((ligand.all_atoms atm_index).element = "H" ∧
        dist_to (ligand.all_atoms atm_index).coordinates
          ligand_atom.coordinates < H_BOND_DIST))).map
    (fun atm_index => (ligand.all_atoms atm_index, "LIGAND")) ++
  (receptor.all_atoms_keys.filter (fun atm_index =>
      decide ((receptor.all_atoms atm_index).element = "H" ∧
        dist_to (receptor.all_atoms atm_index).coordinates
          receptor_atom.coordinates < H_BOND_DIST))).map
    (fun atm_index => (receptor.all_atoms atm_index, "RECEPTOR"))

/-- The detector `Binana.compute_hydrogen_bonds`: electronegative atom pairs under
4.0 A with a nearby hydrogen making a donor-hydrogen-acceptor angle
within 40 degrees of 180. -/
def compute_hydrogen_bonds (ligand receptor : PDBMol) : Hashtable :=
  ligand.all_atoms_keys.foldl (fun hbonds ligand_atom_index =>
    receptor.all_atoms_keys.foldl (fun hbonds receptor_atom_index =>
      let ligand_atom := ligand.all_atoms ligand_atom_index
      let receptor_atom := receptor.all_atoms receptor_atom_index
      let dist := dist_to ligand_atom.coordinates receptor_atom.coordinates
      if dist < CONTACT_CUTOFF then
        if ligand_atom.element ∈ electronegative_atoms ∧
            receptor_atom.element ∈ electronegative_atoms then
          (hbond_hydrogens ligand receptor ligand_atom receptor_atom).foldl
            (fun hbonds hydrogen =>
              if |180 - angle_between_three_points ligand_atom.coordinates
                    hydrogen.1.coordinates receptor_atom.coordinates *
                    180 / Real.pi| ≤ H_BOND_ANGLE then
                hashtable_entry_add_one hbonds
                  ("HDONOR-" ++ hydrogen.2 ++ "_" ++
                    side_chain_or_backbone receptor_atom ++ "_" ++
                    receptor_atom.structure_label) 1
              else hbonds) hbonds
        else hbonds
      else hbonds) hbonds) hbonds_init

/-- The detector `Binana.compute_ligand_atom_counts`: counts of ligand atom types. -/
def compute_ligand_atom_counts (ligand : PDBMol) : Hashtable :=
  ligand.all_atoms_keys.foldl (fun ligand_atom_types ligand_atom_index =>
    hashtable_entry_add_one ligand_atom_types
      (ligand.all_atoms ligand_atom_index).atomtype 1) ligand_atom_types_init

/-- The detector `Binana.compute_ligand_receptor_contacts`: atom pairs under 2.5 A
(close contacts, first component) and under 4.0 A (contacts, second
component), keyed by the sorted atom-type pair. -/
def compute_ligand_receptor_contacts (ligand receptor : PDBMol) :
    Hashtable × Hashtable :=
  ligand.all_atoms_keys.foldl (fun s ligand_atom_index =>
    receptor.all_atoms_keys.foldl (fun s receptor_atom_index =>
      let ligand_atom := ligand.all_atoms ligand_atom_index
      let receptor_atom := receptor.all_atoms receptor_atom_index
      let dist := dist_to ligand_atom.coordinates receptor_atom.coordinates
      let atomstr := sorted_pair_join ligand_atom.atomtype receptor_atom.atomtype
      (if dist < CLOSE_CONTACT_CUTOFF then
          hashtable_entry_add_one s.1 atomstr 1
        else s.1,
       if dist < CONTACT_CUTOFF then
          hashtable_entry_add_one s.2 atomstr 1
        else s.2)) s)
    (ligand_receptor_contacts_init, ligand_receptor_contacts_init)

/-- The detector `Binana.compute_pi_pi_stacking`: aromatic ring pairs with centers
under 7.5 A, near-parallel planes, and at least one ring atom projecting
into the other (padded) ring. -/
def compute_pi_pi_stacking (ligand receptor : PDBMol) : Hashtable :=
  ligand.aromatic_rings.foldl (fun pi_stacking lig_aromatic =>
    receptor.aromatic_rings.foldl (fun pi_stacking rec_aromatic =>
      let dist := dist_to lig_aromatic.center rec_aromatic.center
      if dist < PI_PI_CUTOFF then
        let angle_between_planes :=
          angle_between_points (plane_normal_vector lig_aromatic.plane_coeff)
            (plane_normal_vector rec_aromatic.plane_coeff) * 180 / Real.pi
        if |angle_between_planes - 0| < 30 ∨
            |angle_between_planes - 180| < 30 then
          let pi_pi1 := lig_aromatic.indices.any (fun ligand_ring_index =>
            decide (dist_to
              (project_point_onto_plane
                (ligand.all_atoms ligand_ring_index).coordinates
                rec_aromatic.plane_coeff) rec_aromatic.center ≤
              rec_aromatic.radius + PI_PADDING))
          let pi_pi := if pi_pi1 = false then
              rec_aromatic.indices.any (fun receptor_ring_index =>
                decide (dist_to
                  (project_point_onto_plane
                    (receptor.all_atoms receptor_ring_index).coordinates
                    lig_aromatic.plane_coeff) lig_aromatic.center ≤
                  lig_aromatic.radius + PI_PADDING))
            else pi_pi1
          if pi_pi = true then
            let structure0 :=
              (receptor.all_atoms (rec_aromatic.indices.headD 0)).structure_label
            let structure1 := if structure0 = "" then "OTHER" else structure0
            hashtable_entry_add_one pi_stacking ("STACKING_" ++ structure1) 1
          else pi_stacking
        else pi_stacking
      else pi_stacking) pi_stacking) pi_stacking_init

/-- The detector `Binana.compute_pi_T`: aromatic ring pairs with near-perpendicular
planes, closest atoms within 5.0 A, and a ring center projecting into the
other (padded) ring. -/
def compute_pi_T (ligand receptor : PDBMol) : Hashtable :=
  ligand.aromatic_rings.foldl (fun pi_T lig_aromatic =>
    receptor.aromatic_rings.foldl (fun pi_T rec_aromatic =>
      let angle_between_planes :=
        angle_between_points (plane_normal_vector lig_aromatic.plane_coeff)
          (plane_normal_vector rec_aromatic.plane_coeff) * 180 / Real.pi
      if |angle_between_planes - 90| < 30 ∨
          |angle_between_planes - 270| < 30 then
        let min_dist := lig_aromatic.indices.foldl (fun min_dist ligand_ind =>
          rec_aromatic.indices.foldl (fun min_dist receptor_ind =>
            let d := dist_to (ligand.all_atoms ligand_ind).coordinates
              (receptor.all_atoms receptor_ind).coordinates
            if d < min_dist then d else min_dist) min_dist) 100.0
        if min_dist ≤ 5.0 then
          if dist_to (project_point_onto_plane lig_aromatic.center
                rec_aromatic.plane_coeff) rec_aromatic.center ≤
              rec_aromatic.radius + PI_PADDING ∨
             dist_to (project_point_onto_plane rec_aromatic.center
                lig_aromatic.plane_coeff) lig_aromatic.center ≤
              lig_aromatic.radius + PI_PADDING then
            let structure0 :=
              (receptor.all_atoms (rec_aromatic.indices.headD 0)).structure_label
            let structure1 := if structure0 = "" then "OTHER" else structure0
            hashtable_entry_add_one pi_T ("T-SHAPED_" ++ structure1) 1
          else pi_T
        else pi_T
      else pi_T) pi_T) pi_T_init

/-- The detector `Binana.compute_pi_cation`: positive charges close to an aromatic
ring center projecting into the (padded) ring; receptor rings against
ligand charges first, then ligand rings against receptor charges. -/
def compute_pi_cation (ligand receptor : PDBMol) : Hashtable :=
  let pi_cation1 := receptor.aromatic_rings.foldl (fun pi_cation aromatic =>
    ligand.charges.foldl (fun pi_cation charged =>
      if charged.positive = true then
        if dist_to charged.coordinates aromatic.center < CATION_PI_CUTOFF then
          if dist_to (project_point_onto_plane charged.coordinates
                aromatic.plane_coeff) aromatic.center <
              aromatic.radius + PI_PADDING then
            let structure0 :=
              (receptor.all_atoms (aromatic.indices.headD 0)).structure_label
            let structure1 := if structure0 = "" then "OTHER" else structure0
            hashtable_entry_add_one pi_cation
              ("PI-CATION_LIGAND-CHARGED_" ++ structure1) 1
          else pi_cation
        else pi_cation
      else pi_cation) pi_cation) pi_cation_init
  ligand.aromatic_rings.foldl (fun pi_cation aromatic =>
    receptor.charges.foldl (fun pi_cation charged =>
      if charged.positive = true then
        if dist_to charged.coordinates aromatic.center < CATION_PI_CUTOFF then
          if dist_to (project_point_onto_plane charged.coordinates
                aromatic.plane_coeff) aromatic.center <
              aromatic.radius + PI_PADDING then
            let structure0 :=
              (receptor.all_atoms (charged.indices.headD 0)).structure_label
            let structure1 := if structure0 = "" then "OTHER" else structure0
            hashtable_entry_add_one pi_cation
              ("PI-CATION_RECEPTOR-CHARGED_" ++ structure1) 1
          else pi_cation
        else pi_cation
      else pi_cation) pi_cation) pi_cation1

/-- The detector `Binana.compute_salt_bridges`: oppositely charged groups under 5.5 A,
keyed by the structure class of the receptor group's first atom. -/
def compute_salt_bridges (ligand receptor : PDBMol) : Hashtable :=
  receptor.charges.foldl (fun salt_bridges receptor_charge =>
    ligand.charges.foldl (fun salt_bridges ligand_charge =>
      if ligand_charge.positive ≠ receptor_charge.positive then
        if dist_to ligand_charge.coordinates receptor_charge.coordinates <
            SALT_BRIDGE_CUTOFF then
          hashtable_entry_add_one salt_bridges
            ("SALT-BRIDGE_" ++
              (receptor.all_atoms
                (receptor_charge.indices.headD 0)).structure_label) 1
        else salt_bridges
      else salt_bridges) salt_bridges) salt_bridges_init

/-- The contribution of one atom pair to the close-contact dictionary. -/
def close_contact_pair_term (ligand receptor : PDBMol) (li ri : ℕ)
    (k : String) : ℝ :=
  if dist_to (ligand.all_atoms li).coordinates
        (receptor.all_atoms ri).coordinates < CLOSE_CONTACT_CUTOFF ∧
      sorted_pair_join (ligand.all_atoms li).atomtype
        (receptor.all_atoms ri).atomtype = k
  then 1 else 0

/-- The contribution of one atom pair to the contact dictionary. -/
def contact_pair_term (ligand receptor : PDBMol) (li ri : ℕ)
    (k : String) : ℝ :=
  if dist_to (ligand.all_atoms li).coordinates
        (receptor.all_atoms ri).coordinates < CONTACT_CUTOFF ∧
      sorted_pair_join (ligand.all_atoms li).atomtype
        (receptor.all_atoms ri).atomtype = k
  then 1 else 0

/-- The contribution of one atom pair to the electrostatic dictionary:
its Coulomb energy when it is a contact, zero otherwise. -/
def electrostatic_pair_term (ligand receptor : PDBMol) (li ri : ℕ)
    (k : String) : ℝ :=
  if dist_to (ligand.all_atoms li).coordinates
        (receptor.all_atoms ri).coordinates < CONTACT_CUTOFF ∧
      sorted_pair_join (ligand.all_atoms li).atomtype
        (receptor.all_atoms ri).atomtype = k
  then (ligand.all_atoms li).charge * (receptor.all_atoms ri).charge /
    dist_to (ligand.all_atoms li).coordinates
      (receptor.all_atoms ri).coordinates * ELECTROSTATIC_JOULE_PER_MOL
  else 0

/-- The contribution of one charged-group pair to the salt-bridge
dictionary. -/
def salt_bridge_pair_term (receptor : PDBMol)
    (receptor_charge ligand_charge : Charged) (k : String) : ℝ :=
  if (ligand_charge.positive ≠ receptor_charge.positive ∧
      dist_to ligand_charge.coordinates receptor_charge.coordinates <
        SALT_BRIDGE_CUTOFF) ∧
     "SALT-BRIDGE_" ++
       (receptor.all_atoms
         (receptor_charge.indices.headD 0)).structure_label = k
  then 1 else 0

/-- The contribution of one aromatic-ring pair to the pi-pi stacking
dictionary, with the detection condition written as the spec states it:
center distance under the cutoff, plane angle within 30 degrees of 0 or
180, and some ring atom projecting into the other (padded) ring. -/
def pi_stacking_pair_term (ligand receptor : PDBMol)
    (la ra : AromaticRing) (k : String) : ℝ :=
  if (dist_to la.center ra.center < PI_PI_CUTOFF ∧
      (|angle_between_points (plane_normal_vector la.plane_coeff)
          (plane_normal_vector ra.plane_coeff) * 180 / Real.pi - 0| < 30 ∨
       |angle_between_points (plane_normal_vector la.plane_coeff)
          (plane_normal_vector ra.plane_coeff) * 180 / Real.pi - 180| < 30) ∧
      ((∃ i ∈ la.indices,
          dist_to (project_point_onto_plane
              (ligand.all_atoms i).coordinates ra.plane_coeff) ra.center ≤
            ra.radius + PI_PADDING) ∨
       (∃ j ∈ ra.indices,
          dist_to (project_point_onto_plane
              (receptor.all_atoms j).coordinates la.plane_coeff) la.center ≤
            la.radius + PI_PADDING))) ∧
     "STACKING_" ++
       (if (receptor.all_atoms (ra.indices.headD 0)).structure_label = ""
        then "OTHER"
        else (receptor.all_atoms (ra.indices.headD 0)).structure_label) = k
  then 1 else 0

/-- The contribution of one (ligand atom, receptor atom, tagged hydrogen)
triple to the hydrogen-bond dictionary. -/
def hbond_pair_term (ligand receptor : PDBMol) (li ri : ℕ)
    (hydrogen : Atom × String) (k : String) : ℝ :=
  if ((dist_to (ligand.all_atoms li).coordinates
          (receptor.all_atoms ri).coordinates < CONTACT_CUTOFF ∧
       ((ligand.all_atoms li).element ∈ electronegative_atoms ∧
        (receptor.all_atoms ri).element ∈ electronegative_atoms)) ∧
      |180 - angle_between_three_points (ligand.all_atoms li).coordinates
          hydrogen.1.coordinates (receptor.all_atoms ri).coordinates *
          180 / Real.pi| ≤ H_BOND_ANGLE) ∧
     "HDONOR-" ++ hydrogen.2 ++ "_" ++
       side_chain_or_backbone (receptor.all_atoms ri) ++ "_" ++
       (receptor.all_atoms ri).structure_label = k
  then 1 else 0

/-- A carbon atom at the origin with a well-formed structure label. -/
def atomC : Atom := ⟨⟨0, 0, 0⟩, "C", "C", 0, "ALPHA", false⟩

/-- A carbon atom at the origin whose structure label is empty, as
happens for receptor atoms outside assigned secondary structure
(cofactors and the like, which nnscore.py itself anticipates). -/
def atomCEmpty : Atom := ⟨⟨0, 0, 0⟩, "C", "C", 0, "", false⟩

/-- A one-carbon ligand. -/
def ligandW : PDBMol := ⟨[0], fun _ => atomC, [], []⟩

/-- A one-carbon receptor with a well-formed structure label. -/
def receptorW : PDBMol := ⟨[0], fun _ => atomC, [], []⟩

/-- A one-carbon receptor whose atom has an empty structure label. -/
def receptorEmpty : PDBMol := ⟨[0], fun _ => atomCEmpty, [], []⟩

/-- A positive charged group at the origin on atom 0. -/
def chargedPos : Charged := ⟨⟨0, 0, 0⟩, true, [0]⟩

/-- A negative charged group at the origin on atom 0. -/
def chargedNeg : Charged := ⟨⟨0, 0, 0⟩, false, [0]⟩

/-- A ligand with one negative charged group. -/
def ligandSalt : PDBMol := ⟨[0], fun _ => atomC, [], [chargedNeg]⟩

/-- A receptor with one positive charged group whose atom has an empty
structure label. -/
def receptorSaltEmpty : PDBMol := ⟨[0], fun _ => atomCEmpty, [], [chargedPos]⟩

/-- A receptor with one positive charged group whose atom is labelled
ALPHA. -/
def receptorSaltAlpha : PDBMol := ⟨[0], fun _ => atomC, [], [chargedPos]⟩

/-! ## Voxelization and vectorization (grid_featurizer.py) -/

/-- The function `convert_atom_to_voxel` of grid_featurizer.py: per-axis bucket index
`floor(abs(coordinate + box_width/2) / voxel_width)` — note the `np.abs`
around the shifted coordinate.  The inner list is the numpy index array
of the three axis buckets; the outer singleton list is the `[indices]`
wrapping of the source. -/
def convert_atom_to_voxel (molecule_xyz : List Vec3) (atom_index : ℕ)
    (box_width voxel_width : ℝ) : List (List ℤ) :=
  let coordinates := molecule_xyz.getD atom_index ⟨0, 0, 0⟩
  [[⌊|coordinates.x + box_width / 2| / voxel_width⌋,
    ⌊|coordinates.y + box_width / 2| / voxel_width⌋,
    ⌊|coordinates.z + box_width / 2| / voxel_width⌋]]

/-- A numpy 4-tensor: a shape and the entries at nonnegative effective
indices. -/
structure Tensor4 where
  d1 : ℕ
  d2 : ℕ
  d3 : ℕ
  d4 : ℕ
  entry : ℕ → ℕ → ℕ → ℕ → ℝ

/-- numpy integer indexing on an axis of size `size`: indices in
`[0, size)` address directly, indices in `[-size, 0)` wrap from the end,
anything else raises IndexError (modelled as `none`). -/
def npIndex (size : ℕ) (i : ℤ) : Option ℕ :=
  if 0 ≤ i ∧ i < (size : ℤ) then some i.toNat
  else if -(size : ℤ) ≤ i ∧ i < 0 then some (i + size).toNat
  else none

/-- One tensor increment `t[i, j, k, c] += amt` inside the source's bare
`try/except`: any failing index leaves the tensor unchanged. -/
def tensorAdd (t : Tensor4) (i j k c : ℤ) (amt : ℝ) : Tensor4 :=
  match npIndex t.d1 i, npIndex t.d2 j, npIndex t.d3 k, npIndex t.d4 c with
  | some i', some j', some k', some c' =>
    { t with entry := fun a b d e =>
        if a = i' ∧ b = j' ∧ d = k' ∧ e = c' then t.entry a b d e + amt
        else t.entry a b d e }
  | _, _, _, _ => t

/-- The configuration slice of the `grid_featurizer` class that
`voxelize` reads. -/
structure grid_featurizer where
  box_width : ℝ
  voxel_width : ℝ

/-- The field `self.voxels_per_edge = self.box_width / self.voxel_width` (a float
in the source; `np.zeros` requires it to be integer-valued). -/
def voxels_per_edge (gf : grid_featurizer) : ℝ := gf.box_width / gf.voxel_width

/-- The method `grid_featurizer.voxelize`.  `get_voxels` is the index-array producer
already applied to the coordinates and the box/voxel widths;
`hash_function` is the channel hash with the channel power already
passed along; `featval` reads the numeric value of a feature (the
duck-typed `+= features` of the source).  In feature-dict mode without a
hash function the source indexes `voxel[3]` on the 3-element index
array; the resulting IndexError, swallowed by the bare `except`, is
modelled by the failing `List.get?` lookup. -/
def voxelize {κ φ : Type} (gf : grid_featurizer)
    (get_voxels : κ → List (List ℤ)) (hash_function : Option (φ → ℤ))
    (featval : φ → ℝ) (feature_dict : Option (List (κ × φ)))
    (feature_list : Option (List κ)) (channel_power : Option ℕ)
    (nb_channel0 : ℕ) : Tensor4 :=
  let nb_channel := match channel_power with
    | some p => if p = 0 then 1 else 2 ^ p
    | none => nb_channel0
  let edge : ℕ := (⌊voxels_per_edge gf⌋).toNat
  let feature_tensor : Tensor4 :=
    ⟨edge, edge, edge, nb_channel, fun _ _ _ _ => 0⟩
  match feature_dict with
  | some fd =>
    fd.foldl (fun feature_tensor kf =>
      (get_voxels kf.1).foldl (fun feature_tensor voxel =>
        match hash_function with
        | some hf =>
          match voxel.get? 0, voxel.get? 1, voxel.get? 2 with
          | some v0, some v1, some v2 =>
            tensorAdd feature_tensor v0 v1 v2 (hf kf.2) 1
          | _, _, _ => feature_tensor
        | none =>
          match voxel.get? 0, voxel.get? 1, voxel.get? 3 with
          | some v0, some v1, some v3 =>
            tensorAdd feature_tensor v0 v1 v3 0 (featval kf.2)
          | _, _, _ => feature_tensor) feature_tensor) feature_tensor
  | none =>
    match feature_list with
    | some fl =>
      fl.foldl (fun feature_tensor key =>
        (get_voxels key).foldl (fun feature_tensor voxel =>
          match voxel.get? 0, voxel.get? 1, voxel.get? 2 with
          | some v0, some v1, some v2 =>
            tensorAdd feature_tensor v0 v1 v2 0 1
          | _, _, _ => feature_tensor) feature_tensor) feature_tensor
    | none => feature_tensor

/-- The method `grid_featurizer.vectorize`.  The numpy fancy-indexed update
`feature_vector[on_channels] += 1` increments each position occurring in
`on_channels` exactly once, regardless of multiplicity (unbuffered
duplicate indices collapse); in feature-list mode
`feature_vector[0] += len(feature_list)`. -/
def vectorize {κ φ : Type} (hash_function : φ → ℕ → ℕ)
    (feature_dict : Option (List (κ × φ))) (feature_list : Option (List κ))
    (channel_power : ℕ) : List ℝ :=
  match feature_dict with
  | some fd =>
    let on_channels := fd.map (fun kf => hash_function kf.2 channel_power)
    (List.range (2 ^ channel_power)).map (fun c =>
      if c ∈ on_channels then (0 : ℝ) + 1 else 0)
  | none =>
    match feature_list with
    | some fl =>
      (List.range (2 ^ channel_power)).map (fun c =>
        if c = 0 then (0 : ℝ) + (fl.length : ℝ) else 0)
    | none => List.replicate (2 ^ channel_power) 0

/-! Basic facts about the geometry primitives. -/

lemma dot_self_nonneg (v : Vec3) : 0 ≤ dot v v := by
  have hx : 0 ≤ v.x * v.x := mul_self_nonneg _
  have hy : 0 ≤ v.y * v.y := mul_self_nonneg _
  have hz : 0 ≤ v.z * v.z := mul_self_nonneg _
  unfold dot; linarith

lemma norm3_neg (v : Vec3) : norm3 (Vec3.neg v) = norm3 v := by
  unfold norm3 dot Vec3.neg
  ring_nf

lemma dot_self_of_norm_one {u : Vec3} (h : norm3 u = 1) : dot u u = 1 := by
  have h2 : Real.sqrt (dot u u) = 1 := h
  have := Real.sqrt_eq_one.mp h2
  exact this

lemma unit_vector_of_norm_one {u : Vec3} (h : norm3 u = 1) :
    unit_vector u = u := by
  unfold unit_vector
  rw [h]
  simp

theorem angle_between_unit_self {u : Vec3} (h : norm3 u = 1) :
    angle_between u u = 0 := by
  have huv : unit_vector u = u := unit_vector_of_norm_one h
  have hd : dot (unit_vector u) (unit_vector u) = 1 := by
    rw [huv]; exact dot_self_of_norm_one h
  have hnot : ¬ angle_undefined u u := by
    unfold angle_undefined
    rw [hd, h]
    push_neg
    refine ⟨one_ne_zero, one_ne_zero, by norm_num, by norm_num⟩
  unfold angle_between
  rw [if_neg hnot, hd, Real.arccos_one]

theorem angle_between_unit_neg {u : Vec3} (h : norm3 u = 1) :
    angle_between u (Vec3.neg u) = Real.pi := by
  have hn : norm3 (Vec3.neg u) = 1 := by rw [norm3_neg]; exact h
  have huv : unit_vector u = u := unit_vector_of_norm_one h
  have hvv : unit_vector (Vec3.neg u) = Vec3.neg u := unit_vector_of_norm_one hn
  have hd : dot (unit_vector u) (unit_vector (Vec3.neg u)) = -1 := by
    rw [huv, hvv]
    have : dot u (Vec3.neg u) = -(dot u u) := by unfold dot Vec3.neg; ring
    rw [this, dot_self_of_norm_one h]
  have hnot : ¬ angle_undefined u (Vec3.neg u) := by
    unfold angle_undefined
    rw [hd, h, hn]
    push_neg
    refine ⟨one_ne_zero, one_ne_zero, by norm_num, by norm_num⟩
  unfold angle_between
  rw [if_neg hnot, hd, Real.arccos_neg_one]

/-- C1: `angle_between(u, v)` returns the arccos of the dot product of the
normalized inputs, always lying in `[0, π]`; on the undefined (NaN) branch
it returns `0` when the normalized vectors are exactly equal and `π`
otherwise; and for every unit vector `u`, `angle_between(u, u) = 0` and
`angle_between(u, -u) = π`. -/
theorem angle_between_spec :
    (∀ u v : Vec3, 0 ≤ angle_between u v ∧ angle_between u v ≤ Real.pi) ∧
    (∀ u v : Vec3, ¬ angle_undefined u v →
      angle_between u v = Real.arccos (dot (unit_vector u) (unit_vector v))) ∧
    (∀ u v : Vec3, angle_undefined u v →
      angle_between u v =
        if unit_vector u = unit_vector v then 0 else Real.pi) ∧
    (∀ u : Vec3, norm3 u = 1 →
      angle_between u u = 0 ∧ angle_between u (Vec3.neg u) = Real.pi) := by
  refine ⟨?_, ?_, ?_, ?_⟩
  · intro u v
    unfold angle_between
    by_cases h : angle_undefined u v
    · rw [if_pos h]
      by_cases he : unit_vector u = unit_vector v
      · rw [if_pos he]; exact ⟨le_refl 0, Real.pi_pos.le⟩
      · rw [if_neg he]; exact ⟨Real.pi_pos.le, le_refl _⟩
    · rw [if_neg h]
      exact ⟨Real.arccos_nonneg _, Real.arccos_le_pi _⟩
  · intro u v h
    unfold angle_between
    rw [if_neg h]
  · intro u v h
    unfold angle_between
    rw [if_pos h]
  · intro u h
    exact ⟨angle_between_unit_self h, angle_between_unit_neg h⟩

/-- Witness for C1 at the concrete unit vector `(1, 0, 0)`. -/
theorem angle_between_spec_witness :
    angle_between ⟨1, 0, 0⟩ ⟨1, 0, 0⟩ = 0 ∧
    angle_between ⟨1, 0, 0⟩ (Vec3.neg ⟨1, 0, 0⟩) = Real.pi :=
  angle_between_spec.2.2.2 ⟨1, 0, 0⟩
    (by unfold norm3 dot; norm_num)

lemma htKeys_nil : htKeys [] = [] := rfl

lemma htKeys_cons (p : String × ℝ) (rest : Hashtable) :
    htKeys (p :: rest) = p.1 :: htKeys rest := rfl

lemma htLookup_add (h : Hashtable) (k k' : String) (v : ℝ) :
    htLookup (hashtable_entry_add_one h k v) k' =
      htLookup h k' + if k' = k then v else 0 := by
  induction h with
  | nil =>
    simp only [hashtable_entry_add_one, htLookup]
    by_cases hk : k' = k
    · subst hk; simp
    · have hk2 : ¬ (k = k') := fun he => hk he.symm
      simp [hk, hk2]
  | cons p rest ih =>
    simp only [hashtable_entry_add_one]
    by_cases hp : p.1 = k
    · rw [if_pos hp]
      simp only [htLookup]
      by_cases hk : p.1 = k'
      · have hkk : k' = k := by rw [← hk, hp]
        rw [if_pos hk, if_pos hk, if_pos hkk]
      · have hkk : ¬ (k' = k) := by rw [← hp]; exact fun he => hk he.symm
        rw [if_neg hk, if_neg hk, if_neg hkk, add_zero]
    · rw [if_neg hp]
      simp only [htLookup]
      by_cases hk : p.1 = k'
      · have hkk : ¬ (k' = k) := by rw [← hk]; exact hp
        rw [if_pos hk, if_pos hk, if_neg hkk, add_zero]
      · rw [if_neg hk, if_neg hk, ih]

lemma htKeys_add (h : Hashtable) (k : String) (v : ℝ) :
    htKeys (hashtable_entry_add_one h k v) =
      if k ∈ htKeys h then htKeys h else htKeys h ++ [k] := by
  induction h with
  | nil => simp [hashtable_entry_add_one, htKeys]
  | cons p rest ih =>
    simp only [hashtable_entry_add_one]
    by_cases hp : p.1 = k
    · rw [if_pos hp, htKeys_cons, htKeys_cons]
      have hmem : k ∈ p.1 :: htKeys rest := by
        rw [hp]; exact List.mem_cons_self _ _
      rw [if_pos hmem]
    · rw [if_neg hp, htKeys_cons, htKeys_cons, ih]
      have hkp : ¬ (k = p.1) := fun he => hp he.symm
      by_cases hmem : k ∈ htKeys rest
      · rw [if_pos hmem, if_pos (List.mem_cons_of_mem _ hmem)]
      · have hmem2 : ¬ k ∈ p.1 :: htKeys rest := by
          intro hc
          rcases List.mem_cons.mp hc with h1 | h2
          · exact hkp h1
          · exact hmem h2
        rw [if_neg hmem, if_neg hmem2]
        simp

lemma htLookup_set (h : Hashtable) (k k' : String) (v : ℝ) :
    htLookup (htSet h k v) k' = if k' = k then v else htLookup h k' := by
  induction h with
  | nil =>
    simp only [htSet, htLookup]
    by_cases hk : k' = k
    · subst hk; simp
    · have hk2 : ¬ (k = k') := fun he => hk he.symm
      simp [hk, hk2]
  | cons p rest ih =>
    simp only [htSet]
    by_cases hp : p.1 = k
    · rw [if_pos hp]
      simp only [htLookup]
      by_cases hk : p.1 = k'
      · have hkk : k' = k := by rw [← hk, hp]
        rw [if_pos hk, if_pos hkk]
      · have hkk : ¬ (k' = k) := by rw [← hp]; exact fun he => hk he.symm
        rw [if_neg hk, if_neg hkk, if_neg hk]
    · rw [if_neg hp]
      simp only [htLookup]
      by_cases hk : p.1 = k'
      · have hkk : ¬ (k' = k) := by rw [← hk]; exact hp
        rw [if_pos hk, if_neg hkk, if_pos hk]
      · rw [if_neg hk, ih]
        by_cases hkk : k' = k
        · rw [if_pos hkk, if_pos hkk]
        · rw [if_neg hkk, if_neg hkk, if_neg hk]

lemma htKeys_set (h : Hashtable) (k : String) (v : ℝ) :
    htKeys (htSet h k v) =
      if k ∈ htKeys h then htKeys h else htKeys h ++ [k] := by
  induction h with
  | nil => simp [htSet, htKeys]
  | cons p rest ih =>
    simp only [htSet]
    by_cases hp : p.1 = k
    · rw [if_pos hp, htKeys_cons, htKeys_cons]
      have hmem : k ∈ p.1 :: htKeys rest := by
        rw [hp]; exact List.mem_cons_self _ _
      rw [if_pos hmem]
    · rw [if_neg hp, htKeys_cons, htKeys_cons, ih]
      have hkp : ¬ (k = p.1) := fun he => hp he.symm
      by_cases hmem : k ∈ htKeys rest
      · rw [if_pos hmem, if_pos (List.mem_cons_of_mem _ hmem)]
      · have hmem2 : ¬ k ∈ p.1 :: htKeys rest := by
          intro hc
          rcases List.mem_cons.mp hc with h1 | h2
          · exact hkp h1
          · exact hmem h2
        rw [if_neg hmem, if_neg hmem2]
        simp

/-- Accumulating a fold step whose effect on every lookup is an additive
contribution `g y k` sums the contributions over the list. -/
lemma foldl_htLookup {β : Type} (step : Hashtable → β → Hashtable)
    (g : β → String → ℝ)
    (hstep : ∀ h y k, htLookup (step h y) k = htLookup h k + g y k) :
    ∀ (ys : List β) (h0 : Hashtable) (k : String),
      htLookup (ys.foldl step h0) k =
        htLookup h0 k + (ys.map (fun y => g y k)).sum := by
  intro ys
  induction ys with
  | nil => intro h0 k; simp
  | cons y ys ih =>
    intro h0 k
    rw [List.foldl_cons, ih, hstep]
    simp [add_assoc]

/-- A fold whose every step preserves the key set `V` preserves it
globally. -/
lemma foldl_htKeys_eq {β : Type} (step : Hashtable → β → Hashtable)
    (V : List String)
    (hstep : ∀ h y, htKeys h = V → htKeys (step h y) = V) :
    ∀ (ys : List β) (h0 : Hashtable), htKeys h0 = V →
      htKeys (ys.foldl step h0) = V := by
  intro ys
  induction ys with
  | nil => intro h0 h; exact h
  | cons y ys ih =>
    intro h0 h
    exact ih _ (hstep _ _ h)

/-- A fold whose every step only extends the key set never loses a key. -/
lemma foldl_htKeys_subset {β : Type} (step : Hashtable → β → Hashtable)
    (hstep : ∀ h y, htKeys h ⊆ htKeys (step h y)) :
    ∀ (ys : List β) (h0 : Hashtable), htKeys h0 ⊆ htKeys (ys.foldl step h0) := by
  intro ys
  induction ys with
  | nil => intro h0; exact fun a ha => ha
  | cons y ys ih =>
    intro h0
    exact fun a ha => ih _ (hstep _ _ ha)

lemma htKeys_add_subset (h : Hashtable) (k : String) (v : ℝ) :
    htKeys h ⊆ htKeys (hashtable_entry_add_one h k v) := by
  rw [htKeys_add]
  by_cases hmem : k ∈ htKeys h
  · rw [if_pos hmem]
    exact fun a ha => ha
  · rw [if_neg hmem]
    exact fun a ha => List.mem_append_left _ ha

lemma htKeys_add_of_mem (h : Hashtable) (k : String) (v : ℝ)
    (hmem : k ∈ htKeys h) :
    htKeys (hashtable_entry_add_one h k v) = htKeys h := by
  rw [htKeys_add, if_pos hmem]

/-- A fold over two dictionaries updated independently is the pair of the
component folds. -/
lemma foldl_prod_eq {β : Type} (f g : Hashtable → β → Hashtable)
    (ys : List β) (s : Hashtable × Hashtable) :
    ys.foldl (fun s y => (f s.1 y, g s.2 y)) s =
      (ys.foldl f s.1, ys.foldl g s.2) := by
  induction ys generalizing s with
  | nil => rfl
  | cons y ys ih => simp [List.foldl_cons, ih]

/-! ## Generic bookkeeping lemmas for the detector folds -/

/-- Collapse the nested conditionals of a detector body into a single
guard. -/
lemma if_if_else {α : Type} (A B : Prop) [Decidable A] [Decidable B]
    (x y : α) :
    (if A then (if B then x else y) else y) = if A ∧ B then x else y := by
  by_cases ha : A
  · rw [if_pos ha]
    by_cases hb : B
    · rw [if_pos hb, if_pos ⟨ha, hb⟩]
    · rw [if_neg hb, if_neg (fun hc : A ∧ B => hb hc.2)]
  · rw [if_neg ha, if_neg (fun hc : A ∧ B => ha hc.1)]

/-- Lookup after a guarded `hashtable_entry_add_one`. -/
lemma htLookup_cond_add (h : Hashtable) (cond : Prop) [Decidable cond]
    (key : String) (v : ℝ) (k : String) :
    htLookup (if cond then hashtable_entry_add_one h key v else h) k =
      htLookup h k + if cond ∧ key = k then v else 0 := by
  by_cases hc : cond
  · rw [if_pos hc, htLookup_add]
    congr 1
    by_cases hk : k = key
    · rw [if_pos hk, if_pos ⟨hc, hk.symm⟩]
    · rw [if_neg hk, if_neg (fun hq : cond ∧ key = k => hk hq.2.symm)]
  · rw [if_neg hc, if_neg (fun hq : cond ∧ key = k => hc hq.1), add_zero]

/-- A guarded `hashtable_entry_add_one` whose key stays inside the
vocabulary preserves the key set. -/
lemma htKeys_cond_add (h : Hashtable) (cond : Prop) [Decidable cond]
    (key : String) (v : ℝ) (V : List String) (hkey : cond → key ∈ V)
    (hk : htKeys h = V) :
    htKeys (if cond then hashtable_entry_add_one h key v else h) = V := by
  by_cases hc : cond
  · rw [if_pos hc, htKeys_add, hk, if_pos (hkey hc)]
  · rw [if_neg hc]; exact hk

/-- A guarded `hashtable_entry_add_one` never removes keys. -/
lemma htKeys_cond_add_subset (h : Hashtable) (cond : Prop) [Decidable cond]
    (key : String) (v : ℝ) :
    htKeys h ⊆ htKeys (if cond then hashtable_entry_add_one h key v else h) := by
  by_cases hc : cond
  · rw [if_pos hc]; exact htKeys_add_subset _ _ _
  · rw [if_neg hc]; exact fun a ha => ha

/-- A dict whose stored values are all zero reads zero everywhere. -/
lemma htLookup_zero_of_all (h : Hashtable) (hz : ∀ p ∈ h, p.2 = 0) :
    ∀ k, htLookup h k = 0 := by
  induction h with
  | nil => intro k; rfl
  | cons p rest ih =>
    intro k
    simp only [htLookup]
    by_cases hp : p.1 = k
    · rw [if_pos hp]; exact hz p (List.mem_cons_self _ _)
    · rw [if_neg hp]
      exact ih (fun q hq => hz q (List.mem_cons_of_mem _ hq)) k

/-- Pre-initializing keys to zero with dict assignments keeps every
lookup at zero. -/
lemma foldl_htSet_zero_lookup {β : Type} (f : β → String) :
    ∀ (l : List β) (h0 : Hashtable), (∀ k, htLookup h0 k = 0) →
      ∀ k, htLookup (l.foldl (fun h y => htSet h (f y) 0) h0) k = 0 := by
  intro l
  induction l with
  | nil => intro h0 hz k; exact hz k
  | cons y l ih =>
    intro h0 hz k
    refine ih _ ?_ k
    intro k'
    rw [htLookup_set]
    by_cases hk : k' = f y
    · rw [if_pos hk]
    · rw [if_neg hk]; exact hz k'

lemma mem_htKeys_htSet (h : Hashtable) (k : String) (v : ℝ) :
    k ∈ htKeys (htSet h k v) := by
  rw [htKeys_set]
  by_cases hm : k ∈ htKeys h
  · rw [if_pos hm]; exact hm
  · rw [if_neg hm]
    exact List.mem_append_right _ (List.mem_singleton.mpr rfl)

lemma htKeys_set_subset (h : Hashtable) (k : String) (v : ℝ) :
    htKeys h ⊆ htKeys (htSet h k v) := by
  rw [htKeys_set]
  by_cases hm : k ∈ htKeys h
  · rw [if_pos hm]; exact fun a ha => ha
  · rw [if_neg hm]; exact fun a ha => List.mem_append_left _ ha

/-- Every key written by the pre-initialization fold is in the final key
set. -/
lemma mem_htKeys_foldl_htSet {β : Type} (f : β → String) :
    ∀ (l : List β) (y : β), y ∈ l → ∀ h0 : Hashtable,
      f y ∈ htKeys (l.foldl (fun h y => htSet h (f y) 0) h0) := by
  intro l
  induction l with
  | nil => intro y hy; cases hy
  | cons z l ih =>
    intro y hy h0
    rcases List.mem_cons.mp hy with h1 | h2
    · subst h1
      rw [List.foldl_cons]
      exact foldl_htKeys_subset _ (fun h w => htKeys_set_subset h (f w) 0) l _
        (mem_htKeys_htSet h0 (f y) 0)
    · rw [List.foldl_cons]
      exact ih y h2 _

/-- Membership in `itertools.product(atom_types, atom_types)`. -/
lemma mem_atom_type_pairs {a b : String} (ha : a ∈ atom_types)
    (hb : b ∈ atom_types) : (a, b) ∈ atom_type_pairs := by
  unfold atom_type_pairs
  exact List.mem_flatMap.mpr ⟨a, ha, List.mem_map.mpr ⟨b, hb, rfl⟩⟩

/-- Every sorted pair of declared atom types is a pre-declared contact
key. -/
lemma sorted_pair_join_mem_contacts_init {a b : String} (ha : a ∈ atom_types)
    (hb : b ∈ atom_types) :
    sorted_pair_join a b ∈ htKeys ligand_receptor_contacts_init := by
  have := mem_htKeys_foldl_htSet (fun p : String × String => sorted_pair_join p.1 p.2)
    atom_type_pairs (a, b) (mem_atom_type_pairs ha hb) []
  exact this

/-- Lookups in the contact-vocabulary initialization are all zero. -/
lemma contacts_init_lookup (k : String) :
    htLookup ligand_receptor_contacts_init k = 0 := by
  have := foldl_htSet_zero_lookup (fun p : String × String => sorted_pair_join p.1 p.2)
    atom_type_pairs ([] : Hashtable) (fun _ => rfl) k
  exact this

/-- Lookups in the atom-type-count initialization are all zero. -/
lemma ligand_atom_types_init_lookup (k : String) :
    htLookup ligand_atom_types_init k = 0 := by
  have := foldl_htSet_zero_lookup (fun s : String => s)
    atom_types ([] : Hashtable) (fun _ => rfl) k
  exact this

/-! ## Characterization of the detectors as sums over pairs -/

/-- Nested fold over two dictionaries updated independently. -/
lemma foldl_foldl_prod_eq {β γ : Type} (f g : Hashtable → β → γ → Hashtable)
    (zs : List γ) :
    ∀ (ys : List β) (s : Hashtable × Hashtable),
      ys.foldl (fun s y => zs.foldl (fun s z => (f s.1 y z, g s.2 y z)) s) s =
        (ys.foldl (fun h y => zs.foldl (fun h z => f h y z) h) s.1,
         ys.foldl (fun h y => zs.foldl (fun h z => g h y z) h) s.2) := by
  intro ys
  induction ys with
  | nil => intro s; rfl
  | cons y ys ih =>
    intro s
    rw [List.foldl_cons, List.foldl_cons, List.foldl_cons, ih,
      show zs.foldl (fun s z => (f s.1 y z, g s.2 y z)) s =
          (zs.foldl (fun h z => f h y z) s.1, zs.foldl (fun h z => g h y z) s.2)
        from foldl_prod_eq (fun h z => f h y z) (fun h z => g h y z) zs s]

lemma salt_bridges_init_lookup (k : String) : htLookup salt_bridges_init k = 0 := by
  refine htLookup_zero_of_all _ ?_ k
  intro p hp
  simp only [salt_bridges_init, List.mem_cons, List.not_mem_nil, or_false] at hp
  rcases hp with rfl|rfl|rfl <;> rfl

lemma pi_stacking_init_lookup (k : String) : htLookup pi_stacking_init k = 0 := by
  refine htLookup_zero_of_all _ ?_ k
  intro p hp
  simp only [pi_stacking_init, List.mem_cons, List.not_mem_nil, or_false] at hp
  rcases hp with rfl|rfl|rfl <;> rfl

lemma hbonds_init_lookup (k : String) : htLookup hbonds_init k = 0 := by
  refine htLookup_zero_of_all _ ?_ k
  intro p hp
  simp only [hbonds_init, List.mem_cons, List.not_mem_nil, or_false] at hp
  rcases hp with rfl|rfl|rfl|rfl|rfl|rfl|rfl|rfl|rfl|rfl|rfl|rfl <;> rfl

set_option maxRecDepth 4000 in
/-- The two contact dictionaries are independent folds of the guarded
increments. -/
lemma compute_ligand_receptor_contacts_eq (ligand receptor : PDBMol) :
    compute_ligand_receptor_contacts ligand receptor =
      (ligand.all_atoms_keys.foldl (fun h li =>
        receptor.all_atoms_keys.foldl (fun h ri =>
          if dist_to (ligand.all_atoms li).coordinates
              (receptor.all_atoms ri).coordinates < CLOSE_CONTACT_CUTOFF then
            hashtable_entry_add_one h
              (sorted_pair_join (ligand.all_atoms li).atomtype
                (receptor.all_atoms ri).atomtype) 1
          else h) h) ligand_receptor_contacts_init,
       ligand.all_atoms_keys.foldl (fun h li =>
        receptor.all_atoms_keys.foldl (fun h ri =>
          if dist_to (ligand.all_atoms li).coordinates
              (receptor.all_atoms ri).coordinates < CONTACT_CUTOFF then
            hashtable_entry_add_one h
              (sorted_pair_join (ligand.all_atoms li).atomtype
                (receptor.all_atoms ri).atomtype) 1
          else h) h) ligand_receptor_contacts_init) := by
  exact foldl_foldl_prod_eq
    (fun h li ri =>
      if dist_to (ligand.all_atoms li).coordinates
          (receptor.all_atoms ri).coordinates < CLOSE_CONTACT_CUTOFF then
        hashtable_entry_add_one h
          (sorted_pair_join (ligand.all_atoms li).atomtype
            (receptor.all_atoms ri).atomtype) 1
      else h)
    (fun h li ri =>
      if dist_to (ligand.all_atoms li).coordinates
          (receptor.all_atoms ri).coordinates < CONTACT_CUTOFF then
        hashtable_entry_add_one h
          (sorted_pair_join (ligand.all_atoms li).atomtype
            (receptor.all_atoms ri).atomtype) 1
      else h)
    receptor.all_atoms_keys ligand.all_atoms_keys
    (ligand_receptor_contacts_init, ligand_receptor_contacts_init)

/-- Lookup characterization of the close-contact dictionary. -/
lemma close_contacts_lookup (ligand receptor : PDBMol) (k : String) :
    htLookup (compute_ligand_receptor_contacts ligand receptor).1 k =
      htLookup ligand_receptor_contacts_init k +
        (ligand.all_atoms_keys.map (fun li =>
          (receptor.all_atoms_keys.map (fun ri =>
            close_contact_pair_term ligand receptor li ri k)).sum)).sum := by
  rw [compute_ligand_receptor_contacts_eq]
  refine foldl_htLookup _ (fun li k => (receptor.all_atoms_keys.map (fun ri =>
    close_contact_pair_term ligand receptor li ri k)).sum) ?_ _ _ _
  intro h li k'
  refine foldl_htLookup _ (fun ri k =>
    close_contact_pair_term ligand receptor li ri k) ?_ _ _ _
  intro h2 ri k2
  rw [htLookup_cond_add]
  rfl

/-- Lookup characterization of the contact dictionary. -/
lemma contacts_lookup (ligand receptor : PDBMol) (k : String) :
    htLookup (compute_ligand_receptor_contacts ligand receptor).2 k =
      htLookup ligand_receptor_contacts_init k +
        (ligand.all_atoms_keys.map (fun li =>
          (receptor.all_atoms_keys.map (fun ri =>
            contact_pair_term ligand receptor li ri k)).sum)).sum := by
  rw [compute_ligand_receptor_contacts_eq]
  refine foldl_htLookup _ (fun li k => (receptor.all_atoms_keys.map (fun ri =>
    contact_pair_term ligand receptor li ri k)).sum) ?_ _ _ _
  intro h li k'
  refine foldl_htLookup _ (fun ri k =>
    contact_pair_term ligand receptor li ri k) ?_ _ _ _
  intro h2 ri k2
  rw [htLookup_cond_add]
  rfl

/-- Lookup characterization of the electrostatic dictionary. -/
lemma electrostatics_lookup (ligand receptor : PDBMol) (k : String) :
    htLookup (compute_electrostatic_energy ligand receptor) k =
      htLookup ligand_receptor_contacts_init k +
        (ligand.all_atoms_keys.map (fun li =>
          (receptor.all_atoms_keys.map (fun ri =>
            electrostatic_pair_term ligand receptor li ri k)).sum)).sum := by
  unfold compute_electrostatic_energy
  refine foldl_htLookup _ (fun li k => (receptor.all_atoms_keys.map (fun ri =>
    electrostatic_pair_term ligand receptor li ri k)).sum) ?_ _ _ _
  intro h li k'
  refine foldl_htLookup _ (fun ri k =>
    electrostatic_pair_term ligand receptor li ri k) ?_ _ _ _
  intro h2 ri k2
  show htLookup
      (if dist_to (ligand.all_atoms li).coordinates
          (receptor.all_atoms ri).coordinates < CONTACT_CUTOFF then
        hashtable_entry_add_one h2
          (sorted_pair_join (ligand.all_atoms li).atomtype
            (receptor.all_atoms ri).atomtype)
          ((ligand.all_atoms li).charge * (receptor.all_atoms ri).charge /
            dist_to (ligand.all_atoms li).coordinates
              (receptor.all_atoms ri).coordinates *
            ELECTROSTATIC_JOULE_PER_MOL)
      else h2) k2 =
    htLookup h2 k2 + electrostatic_pair_term ligand receptor li ri k2
  rw [htLookup_cond_add]
  unfold electrostatic_pair_term
  by_cases hc : dist_to (ligand.all_atoms li).coordinates
      (receptor.all_atoms ri).coordinates < CONTACT_CUTOFF ∧
      sorted_pair_join (ligand.all_atoms li).atomtype
        (receptor.all_atoms ri).atomtype = k2
  · rw [if_pos hc]
  · rw [if_neg hc]

/-- Lookup characterization of the salt-bridge dictionary. -/
lemma salt_bridges_lookup (ligand receptor : PDBMol) (k : String) :
    htLookup (compute_salt_bridges ligand receptor) k =
      htLookup salt_bridges_init k +
        (receptor.charges.map (fun receptor_charge =>
          (ligand.charges.map (fun ligand_charge =>
            salt_bridge_pair_term receptor receptor_charge ligand_charge
              k)).sum)).sum := by
  unfold compute_salt_bridges
  refine foldl_htLookup _ (fun rc k => (ligand.charges.map (fun lc =>
    salt_bridge_pair_term receptor rc lc k)).sum) ?_ _ _ _
  intro h rc k'
  refine foldl_htLookup _ (fun lc k =>
    salt_bridge_pair_term receptor rc lc k) ?_ _ _ _
  intro h2 lc k2
  show htLookup
      (if lc.positive ≠ rc.positive then
        if dist_to lc.coordinates rc.coordinates < SALT_BRIDGE_CUTOFF then
          hashtable_entry_add_one h2
            ("SALT-BRIDGE_" ++
              (receptor.all_atoms (rc.indices.headD 0)).structure_label) 1
        else h2
      else h2) k2 =
    htLookup h2 k2 + salt_bridge_pair_term receptor rc lc k2
  rw [if_if_else, htLookup_cond_add]
  unfold salt_bridge_pair_term
  by_cases hc : (lc.positive ≠ rc.positive ∧
      dist_to lc.coordinates rc.coordinates < SALT_BRIDGE_CUTOFF) ∧
      "SALT-BRIDGE_" ++
        (receptor.all_atoms (rc.indices.headD 0)).structure_label = k2
  · rw [if_pos hc]
  · rw [if_neg hc]

/-- Congruence for conditionals over equivalent conditions. -/
lemma if_congr_val {α : Type} (A B : Prop) [Decidable A] [Decidable B]
    (h : A ↔ B) (x y : α) : (if A then x else y) = (if B then x else y) := by
  by_cases hA : A
  · rw [if_pos hA, if_pos (h.mp hA)]
  · rw [if_neg hA, if_neg (fun hb => hA (h.mpr hb))]

/-- The short-circuited second projection scan of the pi-pi detector is
the disjunction of the two scans. -/
lemma bool_if_false_eq_true (b1 b2 : Bool) :
    ((if b1 = false then b2 else b1) = true) ↔ (b1 = true ∨ b2 = true) := by
  cases b1 <;> cases b2 <;> simp

/-- Lookup characterization of the pi-pi stacking dictionary. -/
lemma pi_pi_stacking_lookup (ligand receptor : PDBMol) (k : String) :
    htLookup (compute_pi_pi_stacking ligand receptor) k =
      htLookup pi_stacking_init k +
        (ligand.aromatic_rings.map (fun la =>
          (receptor.aromatic_rings.map (fun ra =>
            pi_stacking_pair_term ligand receptor la ra k)).sum)).sum := by
  unfold compute_pi_pi_stacking
  refine foldl_htLookup _ (fun la k => (receptor.aromatic_rings.map (fun ra =>
    pi_stacking_pair_term ligand receptor la ra k)).sum) ?_ _ _ _
  intro h la k'
  refine foldl_htLookup _ (fun ra k =>
    pi_stacking_pair_term ligand receptor la ra k) ?_ _ _ _
  intro h2 ra k2
  show htLookup
      (if dist_to la.center ra.center < PI_PI_CUTOFF then
        if |angle_between_points (plane_normal_vector la.plane_coeff)
              (plane_normal_vector ra.plane_coeff) * 180 / Real.pi - 0| < 30 ∨
            |angle_between_points (plane_normal_vector la.plane_coeff)
              (plane_normal_vector ra.plane_coeff) * 180 / Real.pi - 180| < 30 then
          if (if (la.indices.any (fun ligand_ring_index =>
                  decide (dist_to (project_point_onto_plane
                      (ligand.all_atoms ligand_ring_index).coordinates
                      ra.plane_coeff) ra.center ≤
                    ra.radius + PI_PADDING))) = false then
                ra.indices.any (fun receptor_ring_index =>
                  decide (dist_to (project_point_onto_plane
                      (receptor.all_atoms receptor_ring_index).coordinates
                      la.plane_coeff) la.center ≤
                    la.radius + PI_PADDING))
              else
                la.indices.any (fun ligand_ring_index =>
                  decide (dist_to (project_point_onto_plane
                      (ligand.all_atoms ligand_ring_index).coordinates
                      ra.plane_coeff) ra.center ≤
                    ra.radius + PI_PADDING))) = true then
            hashtable_entry_add_one h2
              ("STACKING_" ++
                (if (receptor.all_atoms
                      (ra.indices.headD 0)).structure_label = ""
                 then "OTHER"
                 else (receptor.all_atoms
                    (ra.indices.headD 0)).structure_label)) 1
          else h2
        else h2
      else h2) k2 =
    htLookup h2 k2 + pi_stacking_pair_term ligand receptor la ra k2
  rw [if_if_else, if_if_else, htLookup_cond_add]
  congr 1
  refine if_congr_val _ _ ?_ _ _
  unfold pi_stacking_pair_term at *
  constructor
  · rintro ⟨⟨⟨hdist, hang⟩, hproj⟩, hkey⟩
    refine ⟨⟨hdist, hang, ?_⟩, hkey⟩
    rw [bool_if_false_eq_true] at hproj
    simpa only [List.any_eq_true, decide_eq_true_eq] using hproj
  · rintro ⟨⟨hdist, hang, hproj⟩, hkey⟩
    refine ⟨⟨⟨hdist, hang⟩, ?_⟩, hkey⟩
    rw [bool_if_false_eq_true]
    simpa only [List.any_eq_true, decide_eq_true_eq] using hproj

/-- Lookup characterization of the hydrogen-bond dictionary. -/
lemma hydrogen_bonds_lookup (ligand receptor : PDBMol) (k : String) :
    htLookup (compute_hydrogen_bonds ligand receptor) k =
      htLookup hbonds_init k +
        (ligand.all_atoms_keys.map (fun li =>
          (receptor.all_atoms_keys.map (fun ri =>
            ((hbond_hydrogens ligand receptor (ligand.all_atoms li)
                (receptor.all_atoms ri)).map (fun hydrogen =>
              hbond_pair_term ligand receptor li ri hydrogen k)).sum)).sum)).sum := by
  unfold compute_hydrogen_bonds
  refine foldl_htLookup _ (fun li k => (receptor.all_atoms_keys.map (fun ri =>
    ((hbond_hydrogens ligand receptor (ligand.all_atoms li)
        (receptor.all_atoms ri)).map (fun hydrogen =>
      hbond_pair_term ligand receptor li ri hydrogen k)).sum)).sum) ?_ _ _ _
  intro h li k'
  refine foldl_htLookup _ (fun ri k =>
    ((hbond_hydrogens ligand receptor (ligand.all_atoms li)
        (receptor.all_atoms ri)).map (fun hydrogen =>
      hbond_pair_term ligand receptor li ri hydrogen k)).sum) ?_ _ _ _
  intro h2 ri k2
  show htLookup
      (if dist_to (ligand.all_atoms li).coordinates
          (receptor.all_atoms ri).coordinates < CONTACT_CUTOFF then
        if (ligand.all_atoms li).element ∈ electronegative_atoms ∧
            (receptor.all_atoms ri).element ∈ electronegative_atoms then
          (hbond_hydrogens ligand receptor (ligand.all_atoms li)
              (receptor.all_atoms ri)).foldl (fun hbonds hydrogen =>
            if |180 - angle_between_three_points
                  (ligand.all_atoms li).coordinates hydrogen.1.coordinates
                  (receptor.all_atoms ri).coordinates * 180 / Real.pi| ≤
                H_BOND_ANGLE then
              hashtable_entry_add_one hbonds
                ("HDONOR-" ++ hydrogen.2 ++ "_" ++
                  side_chain_or_backbone (receptor.all_atoms ri) ++ "_" ++
                  (receptor.all_atoms ri).structure_label) 1
            else hbonds) h2
        else h2
      else h2) k2 =
    htLookup h2 k2 +
      ((hbond_hydrogens ligand receptor (ligand.all_atoms li)
          (receptor.all_atoms ri)).map (fun hydrogen =>
        hbond_pair_term ligand receptor li ri hydrogen k2)).sum
  by_cases hA : dist_to (ligand.all_atoms li).coordinates
      (receptor.all_atoms ri).coordinates < CONTACT_CUTOFF
  · rw [if_pos hA]
    by_cases hB : (ligand.all_atoms li).element ∈ electronegative_atoms ∧
        (receptor.all_atoms ri).element ∈ electronegative_atoms
    · rw [if_pos hB]
      refine Eq.trans (foldl_htLookup _ (fun hydrogen k =>
        hbond_pair_term ligand receptor li ri hydrogen k) ?_ _ _ _) rfl
      intro h3 hydrogen k3
      rw [htLookup_cond_add]
      congr 1
      refine if_congr_val _ _ ?_ _ _
      constructor
      · rintro ⟨hang, hkey⟩
        exact ⟨⟨⟨hA, hB⟩, hang⟩, hkey⟩
      · rintro ⟨⟨_, hang⟩, hkey⟩
        exact ⟨hang, hkey⟩
    · rw [if_neg hB]
      have hz : ((hbond_hydrogens ligand receptor (ligand.all_atoms li)
          (receptor.all_atoms ri)).map (fun hydrogen =>
        hbond_pair_term ligand receptor li ri hydrogen k2)).sum = 0 := by
        refine List.sum_eq_zero ?_
        intro x hx
        rcases List.mem_map.mp hx with ⟨hydrogen, _, rfl⟩
        unfold hbond_pair_term
        rw [if_neg (fun hc => hB hc.1.1.2)]
      rw [hz, add_zero]
  · rw [if_neg hA]
    have hz : ((hbond_hydrogens ligand receptor (ligand.all_atoms li)
        (receptor.all_atoms ri)).map (fun hydrogen =>
      hbond_pair_term ligand receptor li ri hydrogen k2)).sum = 0 := by
      refine List.sum_eq_zero ?_
      intro x hx
      rcases List.mem_map.mp hx with ⟨hydrogen, _, rfl⟩
      unfold hbond_pair_term
      rw [if_neg (fun hc => hA hc.1.1.1)]
    rw [hz, add_zero]

/-! ## Key-set preservation of the detectors -/

/-- Fold version of key-set preservation, with the step hypothesis only
for members of the folded list. -/
lemma foldl_htKeys_eq_mem {β : Type} (step : Hashtable → β → Hashtable)
    (V : List String) :
    ∀ ys : List β, (∀ y ∈ ys, ∀ h, htKeys h = V → htKeys (step h y) = V) →
      ∀ h0, htKeys h0 = V → htKeys (ys.foldl step h0) = V := by
  intro ys
  induction ys with
  | nil => intro _ h0 h; exact h
  | cons y ys ih =>
    intro hstep h0 h
    exact ih (fun z hz h' hh => hstep z (List.mem_cons_of_mem _ hz) h' hh) _
      (hstep y (List.mem_cons_self _ _) _ h)

/-- A conditional whose both branches keep the vocabulary keeps the
vocabulary. -/
lemma htKeys_ite (C : Prop) [Decidable C] (x h : Hashtable) (V : List String)
    (hx : C → htKeys x = V) (hh : htKeys h = V) :
    htKeys (if C then x else h) = V := by
  by_cases hc : C
  · rw [if_pos hc]; exact hx hc
  · rw [if_neg hc]; exact hh

lemma scob_structure_key_mem (a : Atom)
    (h : a.structure_label ∈ (["ALPHA", "BETA", "OTHER"] : List String)) :
    side_chain_or_backbone a ++ "_" ++ a.structure_label ∈
      htKeys hydrophobics_init := by
  unfold side_chain_or_backbone
  have hs : a.structure_label = "ALPHA" ∨ a.structure_label = "BETA" ∨
      a.structure_label = "OTHER" := by simpa using h
  by_cases hb : a.backbone
  · rw [if_pos hb]
    rcases hs with h1 | h1 | h1 <;> rw [h1] <;> decide
  · rw [if_neg hb]
    rcases hs with h1 | h1 | h1 <;> rw [h1] <;> decide

lemma hbond_hydrogens_tag {ligand receptor : PDBMol} {la ra : Atom}
    {hydrogen : Atom × String}
    (hm : hydrogen ∈ hbond_hydrogens ligand receptor la ra) :
    hydrogen.2 = "LIGAND" ∨ hydrogen.2 = "RECEPTOR" := by
  unfold hbond_hydrogens at hm
  rcases List.mem_append.mp hm with h1 | h1
  · rcases List.mem_map.mp h1 with ⟨i, _, rfl⟩
    exact Or.inl rfl
  · rcases List.mem_map.mp h1 with ⟨i, _, rfl⟩
    exact Or.inr rfl

lemma hbond_key_mem (tag : String) (a : Atom)
    (htag : tag = "LIGAND" ∨ tag = "RECEPTOR")
    (h : a.structure_label ∈ (["ALPHA", "BETA", "OTHER"] : List String)) :
    "HDONOR-" ++ tag ++ "_" ++ side_chain_or_backbone a ++ "_" ++
      a.structure_label ∈ htKeys hbonds_init := by
  unfold side_chain_or_backbone
  have hs : a.structure_label = "ALPHA" ∨ a.structure_label = "BETA" ∨
      a.structure_label = "OTHER" := by simpa using h
  by_cases hb : a.backbone
  · rw [if_pos hb]
    rcases htag with rfl | rfl <;> rcases hs with h1 | h1 | h1 <;>
      rw [h1] <;> decide
  · rw [if_neg hb]
    rcases htag with rfl | rfl <;> rcases hs with h1 | h1 | h1 <;>
      rw [h1] <;> decide

lemma stacking_key_mem (s : String)
    (hs : s ∈ (["ALPHA", "BETA", "OTHER"] : List String)) :
    "STACKING_" ++ (if s = "" then "OTHER" else s) ∈
      htKeys pi_stacking_init := by
  by_cases he : s = ""
  · rw [if_pos he]; decide
  · rw [if_neg he]
    rcases (by simpa using hs : s = "ALPHA" ∨ s = "BETA" ∨ s = "OTHER") with
      h1 | h1 | h1 <;> rw [h1] <;> decide

lemma pi_T_key_mem (s : String)
    (hs : s ∈ (["ALPHA", "BETA", "OTHER"] : List String)) :
    "T-SHAPED_" ++ (if s = "" then "OTHER" else s) ∈ htKeys pi_T_init := by
  by_cases he : s = ""
  · rw [if_pos he]; decide
  · rw [if_neg he]
    rcases (by simpa using hs : s = "ALPHA" ∨ s = "BETA" ∨ s = "OTHER") with
      h1 | h1 | h1 <;> rw [h1] <;> decide

lemma pi_cation_ligand_key_mem (s : String)
    (hs : s ∈ (["ALPHA", "BETA", "OTHER"] : List String)) :
    "PI-CATION_LIGAND-CHARGED_" ++ (if s = "" then "OTHER" else s) ∈
      htKeys pi_cation_init := by
  by_cases he : s = ""
  · rw [if_pos he]; decide
  · rw [if_neg he]
    rcases (by simpa using hs : s = "ALPHA" ∨ s = "BETA" ∨ s = "OTHER") with
      h1 | h1 | h1 <;> rw [h1] <;> decide

lemma pi_cation_receptor_key_mem (s : String)
    (hs : s ∈ (["ALPHA", "BETA", "OTHER"] : List String)) :
    "PI-CATION_RECEPTOR-CHARGED_" ++ (if s = "" then "OTHER" else s) ∈
      htKeys pi_cation_init := by
  by_cases he : s = ""
  · rw [if_pos he]; decide
  · rw [if_neg he]
    rcases (by simpa using hs : s = "ALPHA" ∨ s = "BETA" ∨ s = "OTHER") with
      h1 | h1 | h1 <;> rw [h1] <;> decide

lemma salt_key_mem (s : String)
    (hs : s ∈ (["ALPHA", "BETA", "OTHER"] : List String)) :
    "SALT-BRIDGE_" ++ s ∈ htKeys salt_bridges_init := by
  rcases (by simpa using hs : s = "ALPHA" ∨ s = "BETA" ∨ s = "OTHER") with
    h1 | h1 | h1 <;> rw [h1] <;> decide

lemma mem_ligand_atom_types_init {s : String} (h : s ∈ atom_types) :
    s ∈ htKeys ligand_atom_types_init := by
  unfold ligand_atom_types_init
  have := mem_htKeys_foldl_htSet (fun t : String => t) atom_types s h []
  exact this

lemma hydrophobics_keys (ligand receptor : PDBMol)
    (Hstruct : ∀ i, (receptor.all_atoms i).structure_label ∈
      (["ALPHA", "BETA", "OTHER"] : List String)) :
    htKeys (compute_hydrophobic_contacts ligand receptor) =
      htKeys hydrophobics_init := by
  unfold compute_hydrophobic_contacts
  refine foldl_htKeys_eq_mem _ _ _ ?_ _ rfl
  intro li _ h hk
  refine foldl_htKeys_eq_mem _ _ _ ?_ _ hk
  intro ri _ h2 hk2
  dsimp only []
  refine htKeys_ite _ _ _ _ (fun _ => ?_) hk2
  refine htKeys_ite _ _ _ _ (fun _ => ?_) hk2
  exact (htKeys_add_of_mem _ _ _
    (hk2.symm ▸ scob_structure_key_mem _ (Hstruct ri))).trans hk2

lemma active_site_flexibility_keys (ligand receptor : PDBMol)
    (Hstruct : ∀ i, (receptor.all_atoms i).structure_label ∈
      (["ALPHA", "BETA", "OTHER"] : List String)) :
    htKeys (compute_active_site_flexibility ligand receptor) =
      htKeys active_site_flexibility_init := by
  unfold compute_active_site_flexibility
  refine foldl_htKeys_eq_mem _ _ _ ?_ _ rfl
  intro li _ h hk
  refine foldl_htKeys_eq_mem _ _ _ ?_ _ hk
  intro ri _ h2 hk2
  dsimp only []
  refine htKeys_ite _ _ _ _ (fun _ => ?_) hk2
  exact (htKeys_add_of_mem _ _ _
    (hk2.symm ▸ scob_structure_key_mem _ (Hstruct ri))).trans hk2

lemma electrostatics_keys (ligand receptor : PDBMol)
    (Hlat : ∀ i, (ligand.all_atoms i).atomtype ∈ atom_types)
    (Hrat : ∀ i, (receptor.all_atoms i).atomtype ∈ atom_types) :
    htKeys (compute_electrostatic_energy ligand receptor) =
      htKeys ligand_receptor_contacts_init := by
  unfold compute_electrostatic_energy
  refine foldl_htKeys_eq_mem _ _ _ ?_ _ rfl
  intro li _ h hk
  refine foldl_htKeys_eq_mem _ _ _ ?_ _ hk
  intro ri _ h2 hk2
  dsimp only []
  refine htKeys_ite _ _ _ _ (fun _ => ?_) hk2
  exact (htKeys_add_of_mem _ _ _
    (hk2.symm ▸ sorted_pair_join_mem_contacts_init (Hlat li) (Hrat ri))).trans hk2

lemma ligand_receptor_contacts_keys (ligand receptor : PDBMol)
    (Hlat : ∀ i, (ligand.all_atoms i).atomtype ∈ atom_types)
    (Hrat : ∀ i, (receptor.all_atoms i).atomtype ∈ atom_types) :
    htKeys (compute_ligand_receptor_contacts ligand receptor).1 =
      htKeys ligand_receptor_contacts_init ∧
    htKeys (compute_ligand_receptor_contacts ligand receptor).2 =
      htKeys ligand_receptor_contacts_init := by
  rw [compute_ligand_receptor_contacts_eq]
  constructor <;>
  · refine foldl_htKeys_eq_mem _ _ _ ?_ _ rfl
    intro li _ h hk
    refine foldl_htKeys_eq_mem _ _ _ ?_ _ hk
    intro ri _ h2 hk2
    dsimp only []
    refine htKeys_ite _ _ _ _ (fun _ => ?_) hk2
    exact (htKeys_add_of_mem _ _ _
      (hk2.symm ▸ sorted_pair_join_mem_contacts_init (Hlat li) (Hrat ri))).trans hk2

lemma ligand_atom_counts_keys (ligand : PDBMol)
    (Hlat : ∀ i, (ligand.all_atoms i).atomtype ∈ atom_types) :
    htKeys (compute_ligand_atom_counts ligand) =
      htKeys ligand_atom_types_init := by
  unfold compute_ligand_atom_counts
  refine foldl_htKeys_eq_mem _ _ _ ?_ _ rfl
  intro li _ h hk
  dsimp only []
  exact (htKeys_add_of_mem _ _ _
    (hk.symm ▸ mem_ligand_atom_types_init (Hlat li))).trans hk

lemma hydrogen_bonds_keys (ligand receptor : PDBMol)
    (Hstruct : ∀ i, (receptor.all_atoms i).structure_label ∈
      (["ALPHA", "BETA", "OTHER"] : List String)) :
    htKeys (compute_hydrogen_bonds ligand receptor) = htKeys hbonds_init := by
  unfold compute_hydrogen_bonds
  refine foldl_htKeys_eq_mem _ _ _ ?_ _ rfl
  intro li _ h hk
  refine foldl_htKeys_eq_mem _ _ _ ?_ _ hk
  intro ri _ h2 hk2
  dsimp only []
  refine htKeys_ite _ _ _ _ (fun _ => ?_) hk2
  refine htKeys_ite _ _ _ _ (fun _ => ?_) hk2
  refine foldl_htKeys_eq_mem _ _ _ ?_ _ hk2
  intro hydrogen hmem h3 hk3
  dsimp only []
  refine htKeys_ite _ _ _ _ (fun _ => ?_) hk3
  exact (htKeys_add_of_mem _ _ _
    (hk3.symm ▸ hbond_key_mem hydrogen.2 _ (hbond_hydrogens_tag hmem)
      (Hstruct ri))).trans hk3

lemma pi_pi_stacking_keys (ligand receptor : PDBMol)
    (Hstruct : ∀ i, (receptor.all_atoms i).structure_label ∈
      (["ALPHA", "BETA", "OTHER"] : List String)) :
    htKeys (compute_pi_pi_stacking ligand receptor) =
      htKeys pi_stacking_init := by
  unfold compute_pi_pi_stacking
  refine foldl_htKeys_eq_mem _ _ _ ?_ _ rfl
  intro la _ h hk
  refine foldl_htKeys_eq_mem _ _ _ ?_ _ hk
  intro ra _ h2 hk2
  dsimp only []
  refine htKeys_ite _ _ _ _ (fun _ => ?_) hk2
  refine htKeys_ite _ _ _ _ (fun _ => ?_) hk2
  refine htKeys_ite _ _ _ _ (fun _ => ?_) hk2
  exact (htKeys_add_of_mem _ _ _
    (hk2.symm ▸ stacking_key_mem _ (Hstruct _))).trans hk2

lemma pi_T_keys (ligand receptor : PDBMol)
    (Hstruct : ∀ i, (receptor.all_atoms i).structure_label ∈
      (["ALPHA", "BETA", "OTHER"] : List String)) :
    htKeys (compute_pi_T ligand receptor) = htKeys pi_T_init := by
  unfold compute_pi_T
  refine foldl_htKeys_eq_mem _ _ _ ?_ _ rfl
  intro la _ h hk
  refine foldl_htKeys_eq_mem _ _ _ ?_ _ hk
  intro ra _ h2 hk2
  dsimp only []
  refine htKeys_ite _ _ _ _ (fun _ => ?_) hk2
  refine htKeys_ite _ _ _ _ (fun _ => ?_) hk2
  refine htKeys_ite _ _ _ _ (fun _ => ?_) hk2
  exact (htKeys_add_of_mem _ _ _
    (hk2.symm ▸ pi_T_key_mem _ (Hstruct _))).trans hk2

lemma pi_cation_keys (ligand receptor : PDBMol)
    (Hstruct : ∀ i, (receptor.all_atoms i).structure_label ∈
      (["ALPHA", "BETA", "OTHER"] : List String)) :
    htKeys (compute_pi_cation ligand receptor) = htKeys pi_cation_init := by
  unfold compute_pi_cation
  dsimp only []
  refine foldl_htKeys_eq_mem _ _ _ ?_ _
    (foldl_htKeys_eq_mem _ _ _ ?_ _ rfl)
  · intro aromatic _ h hk
    refine foldl_htKeys_eq_mem _ _ _ ?_ _ hk
    intro charged _ h2 hk2
    dsimp only []
    refine htKeys_ite _ _ _ _ (fun _ => ?_) hk2
    refine htKeys_ite _ _ _ _ (fun _ => ?_) hk2
    refine htKeys_ite _ _ _ _ (fun _ => ?_) hk2
    exact (htKeys_add_of_mem _ _ _
      (hk2.symm ▸ pi_cation_receptor_key_mem _ (Hstruct _))).trans hk2
  · intro aromatic _ h hk
    refine foldl_htKeys_eq_mem _ _ _ ?_ _ hk
    intro charged _ h2 hk2
    dsimp only []
    refine htKeys_ite _ _ _ _ (fun _ => ?_) hk2
    refine htKeys_ite _ _ _ _ (fun _ => ?_) hk2
    refine htKeys_ite _ _ _ _ (fun _ => ?_) hk2
    exact (htKeys_add_of_mem _ _ _
      (hk2.symm ▸ pi_cation_ligand_key_mem _ (Hstruct _))).trans hk2

lemma salt_bridges_keys (ligand receptor : PDBMol)
    (Hstruct : ∀ i, (receptor.all_atoms i).structure_label ∈
      (["ALPHA", "BETA", "OTHER"] : List String)) :
    htKeys (compute_salt_bridges ligand receptor) =
      htKeys salt_bridges_init := by
  unfold compute_salt_bridges
  refine foldl_htKeys_eq_mem _ _ _ ?_ _ rfl
  intro rc _ h hk
  refine foldl_htKeys_eq_mem _ _ _ ?_ _ hk
  intro lc _ h2 hk2
  dsimp only []
  refine htKeys_ite _ _ _ _ (fun _ => ?_) hk2
  refine htKeys_ite _ _ _ _ (fun _ => ?_) hk2
  exact (htKeys_add_of_mem _ _ _
    (hk2.symm ▸ salt_key_mem _ (Hstruct _))).trans hk2

/-! ## Concrete molecules for witnesses and counterexamples -/

lemma dist_to_self (p : Vec3) : dist_to p p = 0 := by
  unfold dist_to norm3 dot Vec3.sub
  have h : (p.x - p.x) * (p.x - p.x) + (p.y - p.y) * (p.y - p.y) +
      (p.z - p.z) * (p.z - p.z) = 0 := by ring
  rw [h, Real.sqrt_zero]

/-- C2 counterexample: with a receptor atom whose structure label is
empty, the hydrophobic-contact detector stores the undeclared key
`SIDECHAIN_`, so the returned dictionary's key set is not the
pre-declared vocabulary. -/
theorem hydrophobics_vocabulary_cex :
    "SIDECHAIN_" ∈ htKeys (compute_hydrophobic_contacts ligandW receptorEmpty) ∧
    "SIDECHAIN_" ∉ htKeys hydrophobics_init := by
  have hdist : dist_to (⟨0, 0, 0⟩ : Vec3) (⟨0, 0, 0⟩ : Vec3) < CONTACT_CUTOFF := by
    rw [dist_to_self]
    unfold CONTACT_CUTOFF
    norm_num
  constructor
  · unfold compute_hydrophobic_contacts ligandW receptorEmpty
    rw [List.foldl_cons, List.foldl_nil, List.foldl_cons, List.foldl_nil]
    dsimp only [atomCEmpty, atomC]
    rw [if_pos hdist, if_pos ⟨rfl, rfl⟩]
    decide
  · decide

/-- C2 (amended): provided every receptor atom's structure label is one
of ALPHA/BETA/OTHER and every atom-type label on either side is among the
21 declared atom types, every fixed-vocabulary dictionary returned by a
detector has exactly the key set of its zero-initialized vocabulary
(close contacts, contacts, electrostatics, ligand atom counts, hydrogen
bonds, hydrophobic contacts, pi-stacking, pi-T, pi-cation, salt bridges,
active-site flexibility). -/
theorem detector_vocabularies_exact (ligand receptor : PDBMol)
    (Hstruct : ∀ i, (receptor.all_atoms i).structure_label ∈
      (["ALPHA", "BETA", "OTHER"] : List String))
    (Hlat : ∀ i, (ligand.all_atoms i).atomtype ∈ atom_types)
    (Hrat : ∀ i, (receptor.all_atoms i).atomtype ∈ atom_types) :
    htKeys (compute_ligand_receptor_contacts ligand receptor).1 =
      htKeys ligand_receptor_contacts_init ∧
    htKeys (compute_ligand_receptor_contacts ligand receptor).2 =
      htKeys ligand_receptor_contacts_init ∧
    htKeys (compute_electrostatic_energy ligand receptor) =
      htKeys ligand_receptor_contacts_init ∧
    htKeys (compute_ligand_atom_counts ligand) =
      htKeys ligand_atom_types_init ∧
    htKeys (compute_hydrogen_bonds ligand receptor) = htKeys hbonds_init ∧
    htKeys (compute_hydrophobic_contacts ligand receptor) =
      htKeys hydrophobics_init ∧
    htKeys (compute_pi_pi_stacking ligand receptor) =
      htKeys pi_stacking_init ∧
    htKeys (compute_pi_T ligand receptor) = htKeys pi_T_init ∧
    htKeys (compute_pi_cation ligand receptor) = htKeys pi_cation_init ∧
    htKeys (compute_salt_bridges ligand receptor) =
      htKeys salt_bridges_init ∧
    htKeys (compute_active_site_flexibility ligand receptor) =
      htKeys active_site_flexibility_init :=
  ⟨(ligand_receptor_contacts_keys ligand receptor Hlat Hrat).1,
   (ligand_receptor_contacts_keys ligand receptor Hlat Hrat).2,
   electrostatics_keys ligand receptor Hlat Hrat,
   ligand_atom_counts_keys ligand Hlat,
   hydrogen_bonds_keys ligand receptor Hstruct,
   hydrophobics_keys ligand receptor Hstruct,
   pi_pi_stacking_keys ligand receptor Hstruct,
   pi_T_keys ligand receptor Hstruct,
   pi_cation_keys ligand receptor Hstruct,
   salt_bridges_keys ligand receptor Hstruct,
   active_site_flexibility_keys ligand receptor Hstruct⟩

/-- Witness for C2 at a concrete one-atom ligand and receptor. -/
theorem detector_vocabularies_exact_witness :
    htKeys (compute_ligand_receptor_contacts ligandW receptorW).1 =
      htKeys ligand_receptor_contacts_init ∧
    htKeys (compute_ligand_receptor_contacts ligandW receptorW).2 =
      htKeys ligand_receptor_contacts_init ∧
    htKeys (compute_electrostatic_energy ligandW receptorW) =
      htKeys ligand_receptor_contacts_init ∧
    htKeys (compute_ligand_atom_counts ligandW) =
      htKeys ligand_atom_types_init ∧
    htKeys (compute_hydrogen_bonds ligandW receptorW) = htKeys hbonds_init ∧
    htKeys (compute_hydrophobic_contacts ligandW receptorW) =
      htKeys hydrophobics_init ∧
    htKeys (compute_pi_pi_stacking ligandW receptorW) =
      htKeys pi_stacking_init ∧
    htKeys (compute_pi_T ligandW receptorW) = htKeys pi_T_init ∧
    htKeys (compute_pi_cation ligandW receptorW) = htKeys pi_cation_init ∧
    htKeys (compute_salt_bridges ligandW receptorW) =
      htKeys salt_bridges_init ∧
    htKeys (compute_active_site_flexibility ligandW receptorW) =
      htKeys active_site_flexibility_init :=
  detector_vocabularies_exact ligandW receptorW
    (fun _ => (by decide :
      atomC.structure_label ∈ (["ALPHA", "BETA", "OTHER"] : List String)))
    (fun _ => (by decide : atomC.atomtype ∈ atom_types))
    (fun _ => (by decide : atomC.atomtype ∈ atom_types))

/-- C10: at every key, the close-contact count (2.5 A cutoff) is at most
the contact count (4.0 A cutoff): every close contact is also a
contact. -/
theorem close_contacts_le_contacts (ligand receptor : PDBMol) (k : String) :
    htLookup (compute_ligand_receptor_contacts ligand receptor).1 k ≤
      htLookup (compute_ligand_receptor_contacts ligand receptor).2 k := by
  rw [close_contacts_lookup, contacts_lookup]
  refine add_le_add_left (List.sum_le_sum ?_) _
  intro li _
  refine List.sum_le_sum ?_
  intro ri _
  unfold close_contact_pair_term contact_pair_term
  by_cases hc : dist_to (ligand.all_atoms li).coordinates
      (receptor.all_atoms ri).coordinates < CLOSE_CONTACT_CUTOFF ∧
      sorted_pair_join (ligand.all_atoms li).atomtype
        (receptor.all_atoms ri).atomtype = k
  · have hc2 : dist_to (ligand.all_atoms li).coordinates
        (receptor.all_atoms ri).coordinates < CONTACT_CUTOFF ∧
        sorted_pair_join (ligand.all_atoms li).atomtype
          (receptor.all_atoms ri).atomtype = k := by
      refine ⟨lt_of_lt_of_le hc.1 ?_, hc.2⟩
      unfold CLOSE_CONTACT_CUTOFF CONTACT_CUTOFF
      norm_num
    rw [if_pos hc, if_pos hc2]
  · rw [if_neg hc]
    by_cases hc2 : dist_to (ligand.all_atoms li).coordinates
        (receptor.all_atoms ri).coordinates < CONTACT_CUTOFF ∧
        sorted_pair_join (ligand.all_atoms li).atomtype
          (receptor.all_atoms ri).atomtype = k
    · rw [if_pos hc2]; norm_num
    · rw [if_neg hc2]

/-- C8: each key of the electrostatic dictionary holds the sum, over the
atom pairs at distance under 4.0 A whose sorted atom-type pair is that
key, of `charge_l * charge_r / d * 1.3894238460104697e6`; pairs at 4.0 A
or beyond contribute nothing, and the constant matches the spec. -/
theorem electrostatics_spec (ligand receptor : PDBMol) (k : String) :
    htLookup (compute_electrostatic_energy ligand receptor) k =
      (ligand.all_atoms_keys.map (fun li =>
        (receptor.all_atoms_keys.map (fun ri =>
          electrostatic_pair_term ligand receptor li ri k)).sum)).sum ∧
    ELECTROSTATIC_JOULE_PER_MOL = 1.3894238460104697e6 := by
  constructor
  · rw [electrostatics_lookup, contacts_init_lookup, zero_add]
  · unfold ELECTROSTATIC_JOULE_PER_MOL
    norm_num

/-- C5: each key of the hydrogen-bond dictionary counts the (ligand atom,
receptor atom, tagged hydrogen) triples with both elements
electronegative, distance under 4.0 A, the hydrogen within 1.3 A of its
heavy atom, the donor-hydrogen-acceptor angle within 40 degrees of 180,
and the key naming the hydrogen's molecule, the receptor atom's
side-chain/backbone class and its structure class; the candidate
hydrogens are exactly the tagged nearby hydrogens of either molecule. -/
theorem hydrogen_bonds_spec (ligand receptor : PDBMol) (k : String) :
    htLookup (compute_hydrogen_bonds ligand receptor) k =
      (ligand.all_atoms_keys.map (fun li =>
        (receptor.all_atoms_keys.map (fun ri =>
          ((hbond_hydrogens ligand receptor (ligand.all_atoms li)
              (receptor.all_atoms ri)).map (fun hydrogen =>
            hbond_pair_term ligand receptor li ri hydrogen k)).sum)).sum)).sum ∧
    (∀ (la ra : Atom) (hydrogen : Atom × String),
      hydrogen ∈ hbond_hydrogens ligand receptor la ra ↔
        ((∃ i ∈ ligand.all_atoms_keys,
            (ligand.all_atoms i).element = "H" ∧
            dist_to (ligand.all_atoms i).coordinates la.coordinates <
              H_BOND_DIST ∧
            hydrogen = (ligand.all_atoms i, "LIGAND")) ∨
         (∃ i ∈ receptor.all_atoms_keys,
            (receptor.all_atoms i).element = "H" ∧
            dist_to (receptor.all_atoms i).coordinates ra.coordinates <
              H_BOND_DIST ∧
            hydrogen = (receptor.all_atoms i, "RECEPTOR")))) := by
  constructor
  · rw [hydrogen_bonds_lookup, hbonds_init_lookup, zero_add]
  · intro la ra hydrogen
    unfold hbond_hydrogens
    simp only [List.mem_append, List.mem_map, List.mem_filter,
      decide_eq_true_eq]
    constructor
    · rintro (⟨i, ⟨hi, hH, hd⟩, rfl⟩ | ⟨i, ⟨hi, hH, hd⟩, rfl⟩)
      · exact Or.inl ⟨i, hi, hH, hd, rfl⟩
      · exact Or.inr ⟨i, hi, hH, hd, rfl⟩
    · rintro (⟨i, hi, hH, hd, rfl⟩ | ⟨i, hi, hH, hd, rfl⟩)
      · exact Or.inl ⟨i, ⟨hi, hH, hd⟩, rfl⟩
      · exact Or.inr ⟨i, ⟨hi, hH, hd⟩, rfl⟩

/-- C6: each key of the pi-pi stacking dictionary counts the aromatic
ring pairs with center distance under 7.5 A, plane angle within 30
degrees of 0 or 180, and at least one ring atom projecting into the other
padded ring, keyed by the receptor ring's structure class with the empty
label classified OTHER. -/
theorem pi_pi_stacking_spec (ligand receptor : PDBMol) (k : String) :
    htLookup (compute_pi_pi_stacking ligand receptor) k =
      (ligand.aromatic_rings.map (fun la =>
        (receptor.aromatic_rings.map (fun ra =>
          pi_stacking_pair_term ligand receptor la ra k)).sum)).sum := by
  rw [pi_pi_stacking_lookup, pi_stacking_init_lookup, zero_add]

/-- C7 counterexample: a salt bridge whose receptor group's atom has an
empty structure label is counted under the key `SALT-BRIDGE_` — none of
SALT-BRIDGE_ALPHA / SALT-BRIDGE_BETA / SALT-BRIDGE_OTHER (there is no
OTHER fallback in this detector). -/
theorem salt_bridges_key_cex :
    htLookup (compute_salt_bridges ligandSalt receptorSaltEmpty)
      "SALT-BRIDGE_" = 1 ∧
    "SALT-BRIDGE_" ∉ (["SALT-BRIDGE_ALPHA", "SALT-BRIDGE_BETA",
      "SALT-BRIDGE_OTHER"] : List String) := by
  constructor
  · have hdist : dist_to (⟨0, 0, 0⟩ : Vec3) (⟨0, 0, 0⟩ : Vec3) <
        SALT_BRIDGE_CUTOFF := by
      rw [dist_to_self]
      unfold SALT_BRIDGE_CUTOFF
      norm_num
    unfold compute_salt_bridges ligandSalt receptorSaltEmpty
    rw [List.foldl_cons, List.foldl_nil, List.foldl_cons, List.foldl_nil]
    dsimp only [chargedPos, chargedNeg, atomCEmpty]
    rw [if_pos (by decide : (false : Bool) ≠ true), if_pos hdist]
    show htLookup (hashtable_entry_add_one salt_bridges_init
      "SALT-BRIDGE_" 1) "SALT-BRIDGE_" = 1
    simp only [hashtable_entry_add_one, htLookup, salt_bridges_init]
    rw [if_neg (by decide : ¬("SALT-BRIDGE_ALPHA" = "SALT-BRIDGE_")),
      if_neg (by decide : ¬("SALT-BRIDGE_BETA" = "SALT-BRIDGE_")),
      if_neg (by decide : ¬("SALT-BRIDGE_OTHER" = "SALT-BRIDGE_")),
      if_pos trivial]
  · decide

/-- C7 (amended): a salt bridge is counted for exactly the charged-group
pairs with opposite charge flags at distance under 5.5 A, each counted
pair incrementing the key `SALT-BRIDGE_` followed by the structure label
of the receptor group's first atom; when every receptor structure label
is ALPHA/BETA/OTHER the key set is exactly the three declared
SALT-BRIDGE keys (an empty label instead yields the undeclared key
`SALT-BRIDGE_`). -/
theorem salt_bridges_spec (ligand receptor : PDBMol) :
    (∀ k, htLookup (compute_salt_bridges ligand receptor) k =
      (receptor.charges.map (fun receptor_charge =>
        (ligand.charges.map (fun ligand_charge =>
          salt_bridge_pair_term receptor receptor_charge ligand_charge
            k)).sum)).sum) ∧
    ((∀ i, (receptor.all_atoms i).structure_label ∈
        (["ALPHA", "BETA", "OTHER"] : List String)) →
      htKeys (compute_salt_bridges ligand receptor) =
        htKeys salt_bridges_init) := by
  constructor
  · intro k
    rw [salt_bridges_lookup, salt_bridges_init_lookup, zero_add]
  · intro Hstruct
    exact salt_bridges_keys ligand receptor Hstruct

/-- Witness for C7 at a concrete charged pair with an ALPHA-labelled
receptor. -/
theorem salt_bridges_spec_witness :
    htLookup (compute_salt_bridges ligandSalt receptorSaltAlpha)
      "SALT-BRIDGE_ALPHA" =
      (receptorSaltAlpha.charges.map (fun receptor_charge =>
        (ligandSalt.charges.map (fun ligand_charge =>
          salt_bridge_pair_term receptorSaltAlpha receptor_charge
            ligand_charge "SALT-BRIDGE_ALPHA")).sum)).sum ∧
    htKeys (compute_salt_bridges ligandSalt receptorSaltAlpha) =
      htKeys salt_bridges_init :=
  ⟨(salt_bridges_spec ligandSalt receptorSaltAlpha).1 "SALT-BRIDGE_ALPHA",
   (salt_bridges_spec ligandSalt receptorSaltAlpha).2
     (fun _ => (by decide :
       atomC.structure_label ∈ (["ALPHA", "BETA", "OTHER"] : List String)))⟩

/-- C3 counterexample: for an atom at x = -16 in a box of width 16 with
unit voxels, the code assigns bucket `floor(|-16 + 8| / 1) = 8`, while
the claimed formula `floor((coordinate + box_width/2) / voxel_width)`
gives `-8`. -/
theorem convert_atom_to_voxel_cex :
    convert_atom_to_voxel [⟨-16, 0, 0⟩] 0 16 1 = [[8, 8, 8]] ∧
    ⌊(((-16 : ℝ) + 16 / 2) / 1)⌋ = (-8 : ℤ) ∧ ((8 : ℤ) ≠ -8) := by
  have h8 : ⌊(8 : ℝ)⌋ = (8 : ℤ) := by
    rw [show (8 : ℝ) = ((8 : ℤ) : ℝ) by norm_num]
    exact Int.floor_intCast 8
  refine ⟨?_, ?_, by decide⟩
  · show [[⌊|(-16 : ℝ) + 16 / 2| / 1⌋, ⌊|(0 : ℝ) + 16 / 2| / 1⌋,
      ⌊|(0 : ℝ) + 16 / 2| / 1⌋]] = [[8, 8, 8]]
    have hx : |(-16 : ℝ) + 16 / 2| / 1 = 8 := by
      rw [show (-16 : ℝ) + 16 / 2 = -(8 : ℝ) by norm_num, abs_neg,
        abs_of_nonneg (by norm_num : (0 : ℝ) ≤ 8), div_one]
    have hy : |(0 : ℝ) + 16 / 2| / 1 = 8 := by
      rw [show (0 : ℝ) + 16 / 2 = (8 : ℝ) by norm_num,
        abs_of_nonneg (by norm_num : (0 : ℝ) ≤ 8), div_one]
    rw [hx, hy, h8]
  · rw [show ((-16 : ℝ) + 16 / 2) / 1 = ((-8 : ℤ) : ℝ) by norm_num]
    exact Int.floor_intCast (-8)

/-- C3 (amended): `convert_atom_to_voxel` always assigns exactly one
index triple (one deterministic cell, never two), computed per axis as
`floor(|coordinate + box_width/2| / voxel_width)`; whenever the shifted
coordinate is nonnegative on every axis — in particular for every atom
inside the box — this coincides with the claimed formula
`floor((coordinate + box_width/2) / voxel_width)`. -/
theorem convert_atom_to_voxel_spec (molecule_xyz : List Vec3)
    (atom_index : ℕ) (box_width voxel_width : ℝ) :
    (convert_atom_to_voxel molecule_xyz atom_index box_width
      voxel_width).length = 1 ∧
    (0 ≤ (molecule_xyz.getD atom_index ⟨0, 0, 0⟩).x + box_width / 2 →
     0 ≤ (molecule_xyz.getD atom_index ⟨0, 0, 0⟩).y + box_width / 2 →
     0 ≤ (molecule_xyz.getD atom_index ⟨0, 0, 0⟩).z + box_width / 2 →
      convert_atom_to_voxel molecule_xyz atom_index box_width voxel_width =
        [[⌊((molecule_xyz.getD atom_index ⟨0, 0, 0⟩).x + box_width / 2) /
            voxel_width⌋,
          ⌊((molecule_xyz.getD atom_index ⟨0, 0, 0⟩).y + box_width / 2) /
            voxel_width⌋,
          ⌊((molecule_xyz.getD atom_index ⟨0, 0, 0⟩).z + box_width / 2) /
            voxel_width⌋]]) := by
  constructor
  · rfl
  · intro hx hy hz
    unfold convert_atom_to_voxel
    dsimp only []
    rw [abs_of_nonneg hx, abs_of_nonneg hy, abs_of_nonneg hz]

/-- Witness for C3 at an atom at the origin in a width-16 box with unit
voxels: the assigned cell is `(8, 8, 8)`. -/
theorem convert_atom_to_voxel_spec_witness :
    convert_atom_to_voxel [⟨0, 0, 0⟩] 0 16 1 = [[8, 8, 8]] := by
  have h := (convert_atom_to_voxel_spec [⟨0, 0, 0⟩] 0 16 1).2
    (by norm_num : (0 : ℝ) ≤ ([(⟨0, 0, 0⟩ : Vec3)].getD 0 ⟨0, 0, 0⟩).x + 16 / 2)
    (by norm_num : (0 : ℝ) ≤ ([(⟨0, 0, 0⟩ : Vec3)].getD 0 ⟨0, 0, 0⟩).y + 16 / 2)
    (by norm_num : (0 : ℝ) ≤ ([(⟨0, 0, 0⟩ : Vec3)].getD 0 ⟨0, 0, 0⟩).z + 16 / 2)
  rw [h]
  have h8 : ⌊(([(⟨0, 0, 0⟩ : Vec3)].getD 0 ⟨0, 0, 0⟩).x + 16 / 2) / 1⌋ =
      (8 : ℤ) := by
    rw [show (([(⟨0, 0, 0⟩ : Vec3)].getD 0 ⟨0, 0, 0⟩).x + 16 / 2) / 1 =
        ((8 : ℤ) : ℝ) by norm_num [List.getD]]
    exact Int.floor_intCast 8
  have h8y : ⌊(([(⟨0, 0, 0⟩ : Vec3)].getD 0 ⟨0, 0, 0⟩).y + 16 / 2) / 1⌋ =
      (8 : ℤ) := by
    rw [show (([(⟨0, 0, 0⟩ : Vec3)].getD 0 ⟨0, 0, 0⟩).y + 16 / 2) / 1 =
        ((8 : ℤ) : ℝ) by norm_num [List.getD]]
    exact Int.floor_intCast 8
  have h8z : ⌊(([(⟨0, 0, 0⟩ : Vec3)].getD 0 ⟨0, 0, 0⟩).z + 16 / 2) / 1⌋ =
      (8 : ℤ) := by
    rw [show (([(⟨0, 0, 0⟩ : Vec3)].getD 0 ⟨0, 0, 0⟩).z + 16 / 2) / 1 =
        ((8 : ℤ) : ℝ) by norm_num [List.getD]]
    exact Int.floor_intCast 8
  rw [h8, h8y, h8z]

/-- C4: in feature-dict mode without a hash function, the in-bounds
increment for the atom at the origin (voxel `(2, 2, 2)` of a 4-voxel
grid, channel 0) is never applied: the source indexes `voxel[3]` on a
3-element index array and the bare `except` swallows the IndexError, so
the returned tensor stays all zero. -/
theorem voxelize_dict_nohash_bug :
    convert_atom_to_voxel [⟨0, 0, 0⟩] 0 4 1 = [[2, 2, 2]] ∧
    (voxelize ⟨4, 1⟩ (fun key => convert_atom_to_voxel [⟨0, 0, 0⟩] key 4 1)
      (none : Option (ℝ → ℤ)) (fun v => v) (some [((0 : ℕ), (1 : ℝ))])
      none none 1).d1 = 4 ∧
    (voxelize ⟨4, 1⟩ (fun key => convert_atom_to_voxel [⟨0, 0, 0⟩] key 4 1)
      (none : Option (ℝ → ℤ)) (fun v => v) (some [((0 : ℕ), (1 : ℝ))])
      none none 1).d4 = 1 ∧
    (∀ a b c d : ℕ,
      (voxelize ⟨4, 1⟩ (fun key => convert_atom_to_voxel [⟨0, 0, 0⟩] key 4 1)
        (none : Option (ℝ → ℤ)) (fun v => v) (some [((0 : ℕ), (1 : ℝ))])
        none none 1).entry a b c d = 0) := by
  have hconv : convert_atom_to_voxel [⟨0, 0, 0⟩] 0 4 1 = [[2, 2, 2]] := by
    show [[⌊|(0 : ℝ) + 4 / 2| / 1⌋, ⌊|(0 : ℝ) + 4 / 2| / 1⌋,
      ⌊|(0 : ℝ) + 4 / 2| / 1⌋]] = [[2, 2, 2]]
    have h2 : |(0 : ℝ) + 4 / 2| / 1 = ((2 : ℤ) : ℝ) := by
      rw [show (0 : ℝ) + 4 / 2 = (2 : ℝ) by norm_num,
        abs_of_nonneg (by norm_num : (0 : ℝ) ≤ 2), div_one]
      norm_num
    rw [h2, Int.floor_intCast]
  have hedge : (⌊voxels_per_edge ⟨4, 1⟩⌋).toNat = 4 := by
    unfold voxels_per_edge
    rw [show (4 : ℝ) / 1 = ((4 : ℤ) : ℝ) by norm_num, Int.floor_intCast]
    rfl
  refine ⟨hconv, hedge, rfl, ?_⟩
  intro a b c d
  rfl

lemma range_map_getD (n c : ℕ) (f : ℕ → ℝ) (hc : c < n) :
    ((List.range n).map f).getD c 0 = f c := by
  rw [List.getD_eq_getElem?_getD, List.getElem?_map, List.getElem?_range hc]
  rfl

/-- C9 counterexample: with a hash function sending both dictionary
entries to channel 0, the returned vector holds 1 at index 0, not 2: the
numpy fancy-indexed `+= 1` collapses duplicate hash targets, so each
present feature does not contribute its own increment. -/
theorem vectorize_collision_cex :
    (vectorize (fun _ _ => 0) (some [((0 : ℕ), (0 : ℕ)), (1, 0)])
      none 3).getD 0 0 = 1 ∧
    ([((0 : ℕ), (0 : ℕ)), (1, 0)].map
      (fun kf => (fun _ _ => (0 : ℕ)) kf.2 3)) = [0, 0] ∧
    (1 : ℝ) ≠ 2 := by
  refine ⟨?_, rfl, by norm_num⟩
  show (0 : ℝ) + 1 = 1
  norm_num

/-- C9 (amended): `vectorize` always returns a vector of length
`2 ^ channel_power`; in feature-dict mode the entry at channel `c` is 1
exactly when some present feature hashes to `c` and 0 otherwise (so with
pairwise distinct hash targets this is one increment per feature, while
colliding features contribute a single shared 1); in feature-list mode
index 0 holds the list's length and every other entry is 0. -/
theorem vectorize_spec {κ φ : Type} (hash_function : φ → ℕ → ℕ)
    (channel_power : ℕ) :
    (∀ (feature_dict : Option (List (κ × φ)))
       (feature_list : Option (List κ)),
      (vectorize hash_function feature_dict feature_list
        channel_power).length = 2 ^ channel_power) ∧
    (∀ (fd : List (κ × φ)) (feature_list : Option (List κ)) (c : ℕ),
      c < 2 ^ channel_power →
      (vectorize hash_function (some fd) feature_list
        channel_power).getD c 0 =
        if c ∈ fd.map (fun kf => hash_function kf.2 channel_power) then 1
        else 0) ∧
    (∀ fl : List κ,
      (vectorize hash_function none (some fl) channel_power).getD 0 0 =
        (fl.length : ℝ) ∧
      (∀ c : ℕ, 0 < c → c < 2 ^ channel_power →
        (vectorize hash_function none (some fl) channel_power).getD c 0 =
          0)) := by
  refine ⟨?_, ?_, ?_⟩
  · intro feature_dict feature_list
    cases feature_dict with
    | some fd => simp [vectorize]
    | none =>
      cases feature_list with
      | some fl => simp [vectorize]
      | none => simp [vectorize]
  · intro fd feature_list c hc
    show ((List.range (2 ^ channel_power)).map (fun c =>
      if c ∈ fd.map (fun kf => hash_function kf.2 channel_power)
      then (0 : ℝ) + 1 else 0)).getD c 0 = _
    rw [range_map_getD _ _ _ hc]
    by_cases hm : c ∈ fd.map (fun kf => hash_function kf.2 channel_power)
    · rw [if_pos hm, if_pos hm, zero_add]
    · rw [if_neg hm, if_neg hm]
  · intro fl
    constructor
    · show ((List.range (2 ^ channel_power)).map (fun c =>
        if c = 0 then (0 : ℝ) + (fl.length : ℝ) else 0)).getD 0 0 = _
      rw [range_map_getD _ _ _ (Nat.pos_pow_of_pos channel_power
        (by norm_num)), if_pos rfl, zero_add]
    · intro c hc0 hc
      show ((List.range (2 ^ channel_power)).map (fun c =>
        if c = 0 then (0 : ℝ) + (fl.length : ℝ) else 0)).getD c 0 = _
      rw [range_map_getD _ _ _ hc, if_neg (Nat.pos_iff_ne_zero.mp hc0)]

/-- Witness for C9 at a concrete one-entry dictionary and a three-element
feature list at channel power 3. -/
theorem vectorize_spec_witness :
    (vectorize (fun _ _ => (0 : ℕ)) (some [((0 : ℕ), (0 : ℕ))])
      none 3).getD 0 0 =
      (if 0 ∈ [((0 : ℕ), (0 : ℕ))].map
        (fun kf => (fun _ _ => (0 : ℕ)) kf.2 3) then 1 else 0) ∧
    (vectorize (fun _ _ => (0 : ℕ)) (none : Option (List (ℕ × ℕ)))
      (some [(0 : ℕ), 1, 2]) 3).getD 0 0 = (3 : ℝ) ∧
    (vectorize (fun _ _ => (0 : ℕ)) (none : Option (List (ℕ × ℕ)))
      (some [(0 : ℕ), 1, 2]) 3).getD 5 0 = 0 :=
  ⟨(vectorize_spec (fun _ _ => (0 : ℕ)) 3).2.1 [((0 : ℕ), (0 : ℕ))] none 0
      (by norm_num),
   ((vectorize_spec (fun _ _ => (0 : ℕ)) 3).2.2 [(0 : ℕ), 1, 2]).1,
   ((vectorize_spec (fun _ _ => (0 : ℕ)) 3).2.2 [(0 : ℕ), 1, 2]).2 5
      (by norm_num) (by norm_num)⟩

end
